import Mathlib

/-! TSEventLoader.

A shallow embedding of `src/Scripting/Private/TSEventLoader.cpp`: the opcode
registry (`messageMap`), the mod ownership index (`messageModMap`), the mod
records (`modIds`, `reloads`, `eventHandlers`), the unload sweep over the world
and the addon-message dispatch entry point.

Conventions of the embedding.

* The global variables of the translation unit are the fields of `State`;
  every function takes the state and returns the new one.
* `std::map<K, V>` is a partial function `K → Option V`; `std::vector<T>` is a
  `List T`; bytes and machine integers are natural numbers, reduced modulo
  `2 ^ 32` where the C++ stores them in a `uint32_t`.
* An execution that the C++ leaves undefined (indexing a vector beyond its
  size, writing beyond the fixed decode buffer) or that throws is a `Fault`;
  fallible functions return `Except Fault _`.
* Callbacks are opaque: a listener is identified by a number (its function
  pointer), a payload constructor is a function from the payload bytes to a
  payload of an arbitrary type `π`, and what the dispatcher does with them is
  recorded in the `Outcome` as the list of calls made.
-/

namespace TSEventLoader

/-! ## Data model -/

/-- The ways an execution can leave defined behaviour. -/
inductive Fault where
  /-- Indexing a `std::vector` with `operator[]` at or beyond its size. -/
  | outOfBounds
  /-- Writing more than 250 bytes into `uint8_t outarr[250]`. -/
  | bufferOverflow
  /-- Calling an empty `std::function`. -/
  | badFunctionCall
deriving DecidableEq, Repr

/-- The modulus of `uint32_t`. -/
def uint32Mod : Nat := 4294967296

/-- Modelled from the spec: the handler descriptor `MessageHandle<void>`, whose
declaration is in a header outside the sources. The spec gives its four parts:
expected payload byte size, payload constructor, enabled flag and the ordered
list of listener callbacks. The default values are those of the "disabled empty
descriptor" that `MessageHandle<void>()` builds. -/
structure MessageHandle (π : Type) where
  size : Nat := 0
  constructor : Option (List Nat → π) := none
  enabled : Bool := false
  listeners : List Nat := []

/-- Modelled from the spec: `MessageHandle<void>()`, the disabled empty
descriptor. -/
def MessageHandle.empty {π : Type} : MessageHandle π := {}

/-- Modelled from the spec: `MessageHandle<void>(size, constructor)`, a newly
registered descriptor: enabled, with the given size and constructor and no
listener yet. -/
def MessageHandle.create {π : Type} (size : Nat) (constructor : List Nat → π) :
    MessageHandle π :=
  { size := size, constructor := some constructor, enabled := true, listeners := [] }

/-- One invocation of a listener callback: which listener, for which player,
with which payload. -/
structure Call (π : Type) where
  listener : Nat
  player : Nat
  payload : π

/-- Modelled from the spec: `MessageHandle::fire(player, data)`: "construct the
typed payload via the descriptor's constructor from the payload bytes, invoke
every registered listener with (senderIdentity, payload)". Calling the empty
`std::function` of a descriptor without constructor throws. -/
def MessageHandle.fire {π : Type} (h : MessageHandle π) (player : Nat) (data : List Nat) :
    Except Fault (List (Call π)) :=
  match h.constructor with
  | none => .error .badFunctionCall
  | some c => .ok (h.listeners.map (fun f => ⟨f, player, c data⟩))

/-- The part of `TSEventHandlers` that this file reads and writes: the mod id. -/
structure TSEventHandlers where
  modid : Nat
deriving DecidableEq, Repr

/-- The three sub-structures of a `WorldObject` that `RemoveData` clears. -/
structure WorldObject where
  storage : List (Nat × Nat)
  timers : List Nat
  callbacks : List Nat
deriving DecidableEq, Repr

/-- A map of the world: its own timers and storage, and the creatures and game
objects of its object store, keyed by guid. -/
structure WorldMap where
  timers : List Nat
  storage : List (Nat × Nat)
  creatures : List (Nat × WorldObject)
  gameObjects : List (Nat × WorldObject)
deriving DecidableEq, Repr

/-- The world as the unload sweep sees it: `sMapMgr` and
`ObjectAccessor::GetPlayers()`. -/
structure World where
  maps : List WorldMap
  players : List (Nat × WorldObject)
deriving DecidableEq, Repr

/-- The global variables of `TSEventLoader.cpp`. -/
structure State (π : Type) where
  modIds : String → Option Nat
  reloads : List Nat
  eventHandlers : String → Option TSEventHandlers
  messageMap : List (MessageHandle π)
  messageModMap : Nat → Option (List Nat)
  world : World

/-- The state at program start: every global container is empty. -/
def State.initial {π : Type} (w : World) : State π :=
  { modIds := fun _ => none
    reloads := []
    eventHandlers := fun _ => none
    messageMap := []
    messageModMap := fun _ => none
    world := w }

/-! ## Mod lifecycle -/

/-- `GetReloads(modid)`: `reloads[modid]`. -/
def GetReloads {π : Type} (s : State π) (modid : Nat) : Except Fault Nat :=
  match s.reloads[modid]? with
  | some r => .ok r
  | none => .error .outOfBounds

/-- The mod id that `TSLoadEventHandler` chooses: the stored id when `modIds`
has the name, else `reloads.size()` (stored in a `uint32_t`). -/
def loadModid {π : Type} (s : State π) (sname : String) : Nat :=
  match s.modIds sname with
  | some id => id
  | none => s.reloads.length % uint32Mod

/-- `TSLoadEventHandler(name)`. The returned pointer is
`&eventHandlers[sname]`; `LoadEvents` runs the mod's own registration code,
whose calls to `RegisterMessage` and `AddMessageListener` are separate steps of
the embedding. -/
def TSLoadEventHandler {π : Type} (s : State π) (sname : String) : State π :=
  { s with
    reloads := match s.modIds sname with
      | some _ => s.reloads
      | none => s.reloads ++ [0]
    eventHandlers := Function.update s.eventHandlers sname (some ⟨loadModid s sname⟩) }

/-- `RemoveData(obj)`. -/
def RemoveData (_obj : WorldObject) : WorldObject :=
  { storage := [], timers := [], callbacks := [] }

/-- `RemoveWorker::Visit` on a creature map or game object map. -/
def RemoveWorker.Visit (objs : List (Nat × WorldObject)) : List (Nat × WorldObject) :=
  objs.map (fun p => (p.1, RemoveData p.2))

/-- The clean-up at the end of `TSUnloadEventHandler`: every map's timers and
storage, every creature and game object of every map, every player. -/
def sweep (w : World) : World :=
  { maps := w.maps.map (fun m =>
      { timers := [], storage := [],
        creatures := RemoveWorker.Visit m.creatures,
        gameObjects := RemoveWorker.Visit m.gameObjects })
    players := w.players.map (fun p => (p.1, RemoveData p.2)) }

/-- The loop `for(auto g : vec)` of `TSUnloadEventHandler`: entries greater than
the registry size are skipped, the others are assigned `MessageHandle<void>()`;
an entry equal to the size passes the guard and indexes out of bounds. -/
def disableOwned {π : Type} : List Nat → List (MessageHandle π) →
    Except Fault (List (MessageHandle π))
  | [], messageMap => .ok messageMap
  | g :: vec, messageMap =>
    if g > messageMap.length then disableOwned vec messageMap
    else if g < messageMap.length then disableOwned vec (messageMap.set g MessageHandle.empty)
    else .error .outOfBounds

/-- The first block of `TSUnloadEventHandler` ("Unload network message classes
and handlers"), given the mod id read from `modIds`. -/
def unloadMessages {π : Type} (s : State π) (modid : Nat) :
    Except Fault (List (MessageHandle π) × (Nat → Option (List Nat))) :=
  match s.messageModMap modid with
  | some vec =>
    match disableOwned vec s.messageMap with
    | .ok messageMap => .ok (messageMap, Function.update s.messageModMap modid none)
    | .error e => .error e
  | none => .ok (s.messageMap, s.messageModMap)

/-- The second block of `TSUnloadEventHandler` ("Unload events"). -/
def unloadEvents {π : Type} (s : State π) (sname : String) :
    Except Fault (List Nat × (String → Option TSEventHandlers)) :=
  match s.eventHandlers sname with
  | some h =>
    match s.reloads[h.modid]? with
    | some r =>
      .ok (s.reloads.set h.modid ((r + 1) % uint32Mod), Function.update s.eventHandlers sname none)
    | none => .error .outOfBounds
  | none => .ok (s.reloads, s.eventHandlers)

/-- `TSUnloadEventHandler(name)`. `modIds[sname]` is `operator[]` of a
`std::map`: an absent name is inserted with the value 0. -/
def TSUnloadEventHandler {π : Type} (s : State π) (sname : String) : Except Fault (State π) :=
  let modid := (s.modIds sname).getD 0
  match unloadMessages s modid with
  | .error e => .error e
  | .ok (messageMap, messageModMap) =>
    match unloadEvents s sname with
    | .error e => .error e
    | .ok (reloads, eventHandlers) =>
      .ok { modIds := Function.update s.modIds sname (some modid)
            reloads := reloads
            eventHandlers := eventHandlers
            messageMap := messageMap
            messageModMap := messageModMap
            world := sweep s.world }

/-! ## Opcode registry -/

/-- `messageMap.resize(n)` when `n` is at least the current size: new slots are
default-constructed. -/
def growTo {π : Type} (messageMap : List (MessageHandle π)) (n : Nat) :
    List (MessageHandle π) :=
  messageMap ++ List.replicate (n - messageMap.length) MessageHandle.empty

/-- `RegisterMessage(modid, opcode, size, constructor)`; `opcode` is a
`uint16_t` and `size` a `uint8_t`. -/
def RegisterMessage {π : Type} (s : State π) (modid opcode size : Nat)
    (constructor : List Nat → π) : State π :=
  let owned := match s.messageModMap modid with
    | some vec => vec
    | none => []
  let messageMap :=
    if opcode ≥ s.messageMap.length then growTo s.messageMap (opcode + 1) else s.messageMap
  { s with
    messageModMap := Function.update s.messageModMap modid (some (owned ++ [opcode]))
    messageMap := messageMap.set opcode (MessageHandle.create size constructor) }

/-- `GetMessage(opcode)`: `&messageMap[opcode]`, with no check of the index. -/
def GetMessage {π : Type} (s : State π) (opcode : Nat) : Except Fault (MessageHandle π) :=
  match s.messageMap[opcode]? with
  | some h => .ok h
  | none => .error .outOfBounds

/-- `AddMessageListener(opcode, func)`. -/
def AddMessageListener {π : Type} (s : State π) (opcode func : Nat) : State π :=
  if opcode ≥ s.messageMap.length then s
  else
    { s with
      messageMap := s.messageMap.modify (fun h => { h with listeners := h.listeners ++ [func] })
        opcode }

/-! ## Base64 -/

/-- Modelled from the spec: the value of a character of the standard base64
alphabet (`A`–`Z`, `a`–`z`, `0`–`9`, `+`, `/`); `base64.h` is outside the
sources. -/
def base64Value (c : Nat) : Option Nat :=
  if 65 ≤ c ∧ c ≤ 90 then some (c - 65)
  else if 97 ≤ c ∧ c ≤ 122 then some (c - 71)
  else if 48 ≤ c ∧ c ≤ 57 then some (c + 4)
  else if c = 43 then some 62
  else if c = 47 then some 63
  else none

/-- Modelled from the spec: `decodeBase64(input, length, output)` of `base64.h`,
which is outside the sources, as standard base64 decoding. Each group of four
characters gives three bytes; a group ending in one or two `=` gives two or one
bytes and ends the text; decoding stops at the first group that is incomplete
or holds a character outside the alphabet. The result is the bytes written to
`output`, its length the returned `outlen`. -/
def decodeBase64 : List Nat → List Nat
  | a :: b :: c :: d :: rest =>
    match base64Value a, base64Value b with
    | some x, some y =>
      match base64Value c, base64Value d with
      | some z, some w =>
        (x * 4 + y / 16) :: (y % 16 * 16 + z / 4) :: (z % 4 * 64 + w) :: decodeBase64 rest
      | some z, none => if d = 61 then [x * 4 + y / 16, y % 16 * 16 + z / 4] else []
      | none, _ => if c = 61 ∧ d = 61 then [x * 4 + y / 16] else []
    | _, _ => []
  | _ => []

/-- The character of the standard base64 alphabet for a 6-bit value. -/
def base64Char (v : Nat) : Nat :=
  if v < 26 then v + 65
  else if v < 52 then v + 71
  else if v < 62 then v - 4
  else if v = 62 then 43
  else 47

/-- Standard base64 encoding with `=` padding, the encoding that the spec's
wire frame applies to the inner frame. -/
def encodeBase64 : List Nat → List Nat
  | a :: b :: c :: rest =>
    base64Char (a / 4) :: base64Char (a % 4 * 16 + b / 16) ::
      base64Char (b % 16 * 4 + c / 64) :: base64Char (c % 64) :: encodeBase64 rest
  | [a, b] => [base64Char (a / 4), base64Char (a % 4 * 16 + b / 16), base64Char (b % 16 * 4), 61]
  | [a] => [base64Char (a / 4), base64Char (a % 4 * 16), 61, 61]
  | [] => []

/-! ## Dispatch entry point -/

/-- What one call of `handleAddonNetworkMessage` did: its return value, the
decoded bytes handed to the `AddonOnMessage` event when `FIRE` was reached, and
the listener calls made by `handler->fire`. -/
structure Outcome (π : Type) where
  handled : Bool
  event : Option (List Nat)
  calls : List (Call π)

/-- The loop that counts the leading tab (9) and space (32) characters of the
message into `offset`. -/
def leadingOffset : List Nat → Nat
  | c :: cs => if c = 9 ∨ c = 32 then leadingOffset cs + 1 else 0
  | [] => 0

/-- A little-endian 32-bit read at byte index `i`: `((uint32_t*)(p))[0]` and
`reader.Read<uint32_t>(i)` on the little-endian hosts the server runs on. -/
def readU32 (bytes : List Nat) (i : Nat) : Nat :=
  bytes.getD i 0 + 256 * bytes.getD (i + 1) 0 + 65536 * bytes.getD (i + 2) 0
    + 16777216 * bytes.getD (i + 3) 0

/-- A little-endian 16-bit read at byte index `i`: `reader.Read<uint16_t>(i)`. -/
def readU16 (bytes : List Nat) (i : Nat) : Nat :=
  bytes.getD i 0 + 256 * bytes.getD (i + 1) 0

/-- `handleAddonNetworkMessage(player, type, lang, msg, receiver)`. The base64
decoder of `base64.h` is the parameter `decode`; it receives the text from
`carr + offset` on and its result is written to `uint8_t outarr[250]`. -/
def handleAddonNetworkMessage {π : Type} (decode : List Nat → List Nat) (s : State π)
    (player _type _lang : Nat) (msg : List Nat) (receiver : Nat) : Except Fault (Outcome π) :=
  if player ≠ receiver then .ok ⟨false, none, []⟩
  else
    let offset := leadingOffset msg
    if msg.length - offset ≤ 4 then .ok ⟨false, none, []⟩
    else
      let preDecodeHeader := readU32 (msg.drop offset) 0
      if preDecodeHeader ≠ 0x50414753 then .ok ⟨false, none, []⟩
      else
        let outarr := decode (msg.drop offset)
        let outlen := outarr.length
        if outlen > 250 then .error .bufferOverflow
        else if outlen ≤ 6 then .ok ⟨false, some outarr, []⟩
        else if readU32 outarr 0 ≠ 1007688 then .ok ⟨false, some outarr, []⟩
        else
          let opcode := readU16 outarr 4
          if opcode ≥ s.messageMap.length then .ok ⟨true, some outarr, []⟩
          else
            match s.messageMap[opcode]? with
            | none => .error .outOfBounds
            | some handler =>
              if handler.size ≠ outlen - 6 ∨ handler.enabled = false then
                .ok ⟨true, some outarr, []⟩
              else
                match handler.fire player (outarr.drop 6) with
                | .ok calls => .ok ⟨true, some outarr, calls⟩
                | .error e => .error e

/-- The bytes of a text, one per character (the texts used are ASCII). -/
def bytesOf (text : String) : List Nat :=
  text.toList.map Char.toNat

/-- The bytes that the handler decodes: the result of the decoder on the text
after the leading tabs and spaces. -/
def decoded (decode : List Nat → List Nat) (msg : List Nat) : List Nat :=
  decode (msg.drop (leadingOffset msg))

/-- The message passes the pre-decode header check: more than 4 characters
remain after the leading tabs and spaces and the first four read
`0x50414753`. -/
def PassesPreDecode (msg : List Nat) : Prop :=
  4 < msg.length - leadingOffset msg ∧ readU32 (msg.drop (leadingOffset msg)) 0 = 0x50414753

instance (msg : List Nat) : Decidable (PassesPreDecode msg) := by
  unfold PassesPreDecode
  infer_instance

/-- The message passes both header checks: the pre-decode check, and then the
post-decode check, which the execution reaches when the decoded bytes fit the
250 bytes of `outarr` and are more than 6, and passes when the first four read
`1007688`. -/
def PassesHeaderChecks (decode : List Nat → List Nat) (msg : List Nat) : Prop :=
  PassesPreDecode msg ∧ (decoded decode msg).length ≤ 250 ∧ 6 < (decoded decode msg).length ∧
    readU32 (decoded decode msg) 0 = 1007688

instance (decode : List Nat → List Nat) (msg : List Nat) :
    Decidable (PassesHeaderChecks decode msg) := by
  unfold PassesHeaderChecks
  infer_instance

/-! ## Reachable states -/

/-- The states the program can be in when only opcodes satisfying `allowed` are
ever registered: from the initial state, by calls of `TSLoadEventHandler`,
`TSUnloadEventHandler` (when it does not fault), `RegisterMessage` (with a
`uint16_t` opcode and a `uint8_t` size) and `AddMessageListener`. -/
inductive ReachableWith {π : Type} (allowed : Nat → Prop) : State π → Prop where
  | initial (w : World) : ReachableWith allowed (State.initial w)
  | load {s : State π} (sname : String) :
      ReachableWith allowed s → ReachableWith allowed (TSLoadEventHandler s sname)
  | unload {s t : State π} (sname : String) :
      ReachableWith allowed s → TSUnloadEventHandler s sname = .ok t → ReachableWith allowed t
  | register {s : State π} (modid opcode size : Nat) (constructor : List Nat → π) :
      ReachableWith allowed s → allowed opcode → opcode < 65536 → size < 256 →
      ReachableWith allowed (RegisterMessage s modid opcode size constructor)
  | listen {s : State π} (opcode func : Nat) :
      ReachableWith allowed s → opcode < 65536 →
      ReachableWith allowed (AddMessageListener s opcode func)

/-- The states the program can be in. -/
def Reachable {π : Type} (s : State π) : Prop :=
  ReachableWith (fun _ => True) s

/-- The states the program can be in while opcode `o` has never been
registered. -/
def ReachableWithout {π : Type} (o : Nat) (s : State π) : Prop :=
  ReachableWith (fun opcode => opcode ≠ o) s

/-! ## The wire format in the spec's words -/

/-- The four bytes of a 32-bit value in little-endian order. -/
def le32 (n : Nat) : List Nat :=
  [n % 256, n / 256 % 256, n / 65536 % 256, n / 16777216 % 256]

/-- The two bytes of a 16-bit value in little-endian order. -/
def le16 (n : Nat) : List Nat :=
  [n % 256, n / 256 % 256]

/-- The inner frame of the spec: "[4-byte LE magic 1007688][2-byte LE
opcode][payload bytes]". -/
def innerFrame (opcode : Nat) (payload : List Nat) : List Nat :=
  le32 1007688 ++ le16 opcode ++ payload

/-- The inbound wire frame as the spec words it, without leading whitespace:
"[4-byte LE magic 0x50414753][base64 of inner frame]". -/
def specWireFrame (opcode : Nat) (payload : List Nat) : List Nat :=
  le32 0x50414753 ++ encodeBase64 (innerFrame opcode payload)

/-! ## Scenarios -/

/-- The initial state over an empty world, with payloads that are the raw
bytes. -/
def start : State (List Nat) := State.initial ⟨[], []⟩

/-- Two mods loaded one after the other: "a" receives mod id 0 and "b" mod
id 1. -/
def twoMods : State (List Nat) :=
  TSLoadEventHandler (TSLoadEventHandler start "a") "b"

/-- Mod "b", loaded as mod 1, has registered opcode 5 with expected size 3 and
the identity constructor, and listener 77 has been added to it. -/
def registered : State (List Nat) :=
  AddMessageListener (RegisterMessage twoMods 1 5 3 id) 5 77

/-- `TSUnloadEventHandler(name)` followed by `TSLoadEventHandler(name)`. -/
def reload {π : Type} (s : State π) (sname : String) : Except Fault (State π) :=
  match TSUnloadEventHandler s sname with
  | .ok t => .ok (TSLoadEventHandler t sname)
  | .error e => .error e

/-! ## Further definitions for the dispatch and ownership properties -/

/-- A little-endian 32-bit read at byte index `i` that fails when one of its
four bytes lies outside the bytes given. -/
def readU32Checked (bytes : List Nat) (i : Nat) : Option Nat :=
  match bytes[i]?, bytes[i + 1]?, bytes[i + 2]?, bytes[i + 3]? with
  | some a, some b, some c, some d => some (a + 256 * b + 65536 * c + 16777216 * d)
  | _, _, _, _ => none

/-- The opcodes in the ownership vector of a mod id; none when the id has no
entry in `messageModMap`. -/
def ownedBy {π : Type} (s : State π) (modid : Nat) : List Nat :=
  match s.messageModMap modid with
  | some vec => vec
  | none => []

/-- The three sub-structures of a world object are empty. -/
def WorldObject.Cleared (obj : WorldObject) : Prop :=
  obj.storage = [] ∧ obj.timers = [] ∧ obj.callbacks = []

instance (obj : WorldObject) : Decidable obj.Cleared := by
  unfold WorldObject.Cleared
  infer_instance

/-- The guids of the objects of a container, in its order. -/
def guids (objs : List (Nat × WorldObject)) : List Nat :=
  objs.map Prod.fst

/-- A world with one map, holding creature 10 and game object 20 with data,
and the connected player 9 with data. -/
def populated : World :=
  { maps := [{ timers := [1], storage := [(1, 2)],
               creatures := [(10, ⟨[(3, 4)], [5], [6]⟩)],
               gameObjects := [(20, ⟨[(7, 8)], [], [9]⟩)] }]
    players := [(9, ⟨[(1, 1)], [2], [3]⟩)] }

/-- The state in which mod "a", loaded first with mod id 0, has gone through
unload and load again a number of times that leaves its reload counter at
`n mod 2 ^ 32`. -/
def counterState (n : Nat) : State (List Nat) :=
  { modIds := Function.update (fun _ => none) "a" (some 0)
    reloads := [n % uint32Mod]
    eventHandlers := Function.update (fun _ => none) "a" (some ⟨0⟩)
    messageMap := []
    messageModMap := fun _ => none
    world := ⟨[], []⟩ }

/-! ## The game-master debug commands -/

/-- Mod "b", loaded as mod 1, has registered opcode 5 with expected size 249
and the identity constructor, and listener 77 has been added to it. -/
def longPayloadRegistered : State (List Nat) :=
  AddMessageListener (RegisterMessage twoMods 1 5 249 id) 5 77

/-- The frame of opcode 5 with a payload of 249 zero bytes: 340 base64
characters that decode to 255 bytes. -/
def longFrame : List Nat :=
  encodeBase64 (innerFrame 5 (List.replicate 249 0))

/-! ## Registry lemmas -/

theorem growTo_length {π : Type} (messageMap : List (MessageHandle π)) (n : Nat) :
    (growTo messageMap n).length = max messageMap.length n := by
  simp only [growTo, List.length_append, List.length_replicate]
  omega

theorem growTo_getElem? {π : Type} (messageMap : List (MessageHandle π)) (n i : Nat) :
    (growTo messageMap n)[i]? =
      if i < messageMap.length then messageMap[i]?
      else if i < n then some MessageHandle.empty else none := by
  unfold growTo
  by_cases h : i < messageMap.length
  · simp [h, List.getElem?_append_left]
  · rw [List.getElem?_append_right (by omega), if_neg h]
    by_cases h2 : i < n
    · rw [if_pos h2, List.getElem?_replicate, if_pos (by omega)]
    · rw [if_neg h2, List.getElem?_replicate, if_neg (by omega)]

/-- Slot by slot, what `RegisterMessage` leaves in the registry. -/
theorem RegisterMessage_getElem? {π : Type} (s : State π) (modid opcode size : Nat)
    (c : List Nat → π) (i : Nat) :
    (RegisterMessage s modid opcode size c).messageMap[i]? =
      if i = opcode then some (MessageHandle.create size c)
      else if i < s.messageMap.length then s.messageMap[i]?
      else if i < opcode + 1 then some MessageHandle.empty else none := by
  simp only [RegisterMessage]
  by_cases hge : opcode ≥ s.messageMap.length
  · rw [if_pos hge, List.getElem?_set, growTo_length, growTo_getElem?]
    by_cases hi : opcode = i
    · subst hi
      simp
    · rw [if_neg hi, if_neg (Ne.symm hi)]
  · rw [if_neg hge, List.getElem?_set]
    by_cases hi : opcode = i
    · subst hi
      simp only [if_true]
      rw [if_pos (by omega)]
    · rw [if_neg hi, if_neg (Ne.symm hi)]
      by_cases h1 : i < s.messageMap.length
      · rw [if_pos h1]
      · rw [if_neg h1, if_neg (by omega)]
        exact List.getElem?_eq_none (by omega)

theorem RegisterMessage_length {π : Type} (s : State π) (modid opcode size : Nat)
    (c : List Nat → π) :
    (RegisterMessage s modid opcode size c).messageMap.length =
      max s.messageMap.length (opcode + 1) := by
  simp only [RegisterMessage]
  by_cases hge : opcode ≥ s.messageMap.length
  · rw [if_pos hge, List.length_set, growTo_length]
  · rw [if_neg hge, List.length_set]
    omega

/-! ## C8 and C9: lookup and registration -/

/-- C9. `RegisterMessage(modid, opcode, size, constructor)` leaves a registry of
size `max(old size, opcode + 1)`; slot `opcode` holds the fresh descriptor:
enabled, with the given size and constructor and no listener, whatever was
there before; every other slot that existed is unchanged; every other slot
created by the growth is the disabled empty descriptor. -/
theorem RegisterMessage_registry {π : Type} (s : State π) (modid opcode size : Nat)
    (c : List Nat → π) :
    (RegisterMessage s modid opcode size c).messageMap.length
        = max s.messageMap.length (opcode + 1) ∧
      (RegisterMessage s modid opcode size c).messageMap[opcode]?
        = some ⟨size, some c, true, []⟩ ∧
      (∀ i, i ≠ opcode → i < s.messageMap.length →
        (RegisterMessage s modid opcode size c).messageMap[i]? = s.messageMap[i]?) ∧
      (∀ i, i ≠ opcode → s.messageMap.length ≤ i →
        i < (RegisterMessage s modid opcode size c).messageMap.length →
        (RegisterMessage s modid opcode size c).messageMap[i]?
          = some ⟨0, none, false, []⟩) := by
  refine ⟨RegisterMessage_length s modid opcode size c, ?_, ?_, ?_⟩
  · rw [RegisterMessage_getElem?, if_pos rfl]
    rfl
  · intro i hne hlt
    rw [RegisterMessage_getElem?, if_neg hne, if_pos hlt]
  · intro i hne hle hlt
    rw [RegisterMessage_length] at hlt
    rw [RegisterMessage_getElem?, if_neg hne, if_neg (by omega), if_pos (by omega)]
    rfl

/-- C8, as the code has it. `GetMessage(opcode)` returns the descriptor stored
at the index when the opcode is below the registry size; at or beyond the size
it indexes the vector out of bounds: there is no sentinel descriptor. -/
theorem GetMessage_eq {π : Type} (s : State π) (opcode : Nat) :
    GetMessage s opcode =
      if h : opcode < s.messageMap.length then .ok (s.messageMap.get ⟨opcode, h⟩)
      else .error .outOfBounds := by
  unfold GetMessage
  by_cases h : opcode < s.messageMap.length
  · rw [dif_pos h, List.getElem?_eq_getElem h]
    rfl
  · rw [dif_neg h, List.getElem?_eq_none (by omega)]

/-- C8, counterexample. On the empty registry `GetMessage(0)` is an
out-of-bounds access, not a disabled empty descriptor. -/
theorem GetMessage_out_of_range :
    GetMessage start 0 = .error .outOfBounds ∧ GetMessage start 0 ≠ .ok MessageHandle.empty :=
  ⟨rfl, fun h => by cases h⟩

/-! ## C1 to C4: the mod id read on unload

`TSLoadEventHandler` reads `modIds` but nothing in the file stores an assigned
id in it; the only entries are the zeros that `modIds[sname]` inserts in
`TSUnloadEventHandler`. A mod whose id is not 0 is therefore unloaded, and
loaded again, under the id 0. -/

/-- C1, evaluated. Mod "b" is loaded with mod id 1 and registers opcode 5 with
size 3 under that id, with listener 77. After `TSUnloadEventHandler("b")` the
slot 5 is still the enabled descriptor, and the frame carrying opcode 5 and the
3-byte payload 1, 2, 3 still fires listener 77. -/
theorem unload_leaves_opcode_of_mod_one :
    twoMods.eventHandlers "b" = some ⟨1⟩ ∧
    ∃ t, TSUnloadEventHandler registered "b" = .ok t ∧
      t.messageMap[5]? = some ⟨3, some id, true, [77]⟩ ∧
      encodeBase64 (innerFrame 5 [1, 2, 3]) = bytesOf "SGAPAAUAAQID" ∧
      handleAddonNetworkMessage decodeBase64 t 9 0 0 (bytesOf "SGAPAAUAAQID") 9
        = .ok ⟨true, some (innerFrame 5 [1, 2, 3]), [⟨77, 9, [1, 2, 3]⟩]⟩ :=
  ⟨rfl, _, rfl, rfl, rfl, rfl⟩

/-- C2, evaluated. With "a" loaded as mod 0 and "b" as mod 1, opcode 5 is
registered under mod 0 only and mod 1 owns nothing. `TSUnloadEventHandler("b")`
resets slot 5 to the disabled empty descriptor while "a" stays loaded, and so
does `TSUnloadEventHandler` of a name that was never loaded. -/
theorem unload_resets_opcode_of_other_mod :
    twoMods.eventHandlers "a" = some ⟨0⟩ ∧ twoMods.eventHandlers "b" = some ⟨1⟩ ∧
    (RegisterMessage twoMods 0 5 3 id).messageModMap 0 = some [5] ∧
    (RegisterMessage twoMods 0 5 3 id).messageModMap 1 = none ∧
    (RegisterMessage twoMods 0 5 3 id).messageMap[5]? = some ⟨3, some id, true, []⟩ ∧
    (∃ t, TSUnloadEventHandler (RegisterMessage twoMods 0 5 3 id) "b" = .ok t ∧
      t.eventHandlers "a" = some ⟨0⟩ ∧ t.messageMap[5]? = some ⟨0, none, false, []⟩) ∧
    (∃ t, TSUnloadEventHandler (RegisterMessage twoMods 0 5 3 id) "never" = .ok t ∧
      t.eventHandlers "a" = some ⟨0⟩ ∧ t.messageMap[5]? = some ⟨0, none, false, []⟩) :=
  ⟨rfl, rfl, rfl, rfl, rfl, ⟨_, rfl, rfl, rfl⟩, ⟨_, rfl, rfl, rfl⟩⟩

/-- C3, evaluated. Mod "b" is loaded with mod id 1 and reload counter 0. After
unload, load, unload, load of "b" its handler set has mod id 0, and the reload
counter of id 1 is 1, not 2: the second unload counted for id 0. -/
theorem reload_twice_of_mod_one :
    twoMods.eventHandlers "b" = some ⟨1⟩ ∧ GetReloads twoMods 1 = .ok 0 ∧
    GetReloads twoMods 0 = .ok 0 ∧
    ∃ t u, reload twoMods "b" = .ok t ∧ reload t "b" = .ok u ∧
      u.eventHandlers "b" = some ⟨0⟩ ∧ GetReloads u 1 = .ok 1 ∧ GetReloads u 0 = .ok 1 :=
  ⟨rfl, rfl, rfl, _, _, rfl, rfl, rfl, rfl, rfl⟩

/-- C4, evaluated. After "a" is given id 0 and "b" id 1, unloading and loading
"b" gives "b" the id 0 that "a" still holds. And when a never-loaded "b" is
unloaded and then loaded it is given id 0, after which "a", seen for the first
time, is given 0 as well, which is not greater than the id assigned before. -/
theorem mod_id_given_twice :
    (TSLoadEventHandler start "a").eventHandlers "a" = some ⟨0⟩ ∧
    twoMods.eventHandlers "b" = some ⟨1⟩ ∧
    (∃ t, reload twoMods "b" = .ok t ∧
      t.eventHandlers "a" = some ⟨0⟩ ∧ t.eventHandlers "b" = some ⟨0⟩) ∧
    (∃ t, reload start "b" = .ok t ∧ t.eventHandlers "b" = some ⟨0⟩ ∧
      t.modIds "a" = none ∧ (TSLoadEventHandler t "a").eventHandlers "a" = some ⟨0⟩) :=
  ⟨rfl, rfl, ⟨_, rfl, rfl, rfl⟩, ⟨_, rfl, rfl, rfl, rfl⟩⟩

/-! ## C10: the decode buffer -/

set_option maxRecDepth 100000 in
/-- C10, evaluated. The text "SGAP" followed by 336 times "A" passes the
pre-decode header check and decodes to 255 bytes; the handler has no capacity
check, so the decode writes beyond the 250 bytes of `outarr` instead of
rejecting the message. -/
theorem decode_overflows_buffer :
    (bytesOf "SGAP" ++ List.replicate 336 65).length - leadingOffset
        (bytesOf "SGAP" ++ List.replicate 336 65) = 340 ∧
    readU32 (bytesOf "SGAP" ++ List.replicate 336 65) 0 = 0x50414753 ∧
    (decodeBase64 (bytesOf "SGAP" ++ List.replicate 336 65)).length = 255 ∧
    handleAddonNetworkMessage decodeBase64 start 9 0 0
        (bytesOf "SGAP" ++ List.replicate 336 65) 9 = .error .bufferOverflow := by
  refine ⟨by decide, by decide, by decide, ?_⟩
  rfl

/-! ## What the lifecycle operations do to the registry -/

theorem TSLoadEventHandler_messageMap {π : Type} (s : State π) (sname : String) :
    (TSLoadEventHandler s sname).messageMap = s.messageMap := rfl

/-- The unload loop keeps the size of the registry and leaves in each slot
either what was there or the disabled empty descriptor. -/
theorem disableOwned_getElem? {π : Type} (vec : List Nat) :
    ∀ (messageMap result : List (MessageHandle π)),
      disableOwned vec messageMap = .ok result →
      result.length = messageMap.length ∧
        ∀ i : Nat, result[i]? = messageMap[i]? ∨ result[i]? = some MessageHandle.empty := by
  induction vec with
  | nil =>
    intro messageMap result h
    simp only [disableOwned, Except.ok.injEq] at h
    subst h
    exact ⟨rfl, fun i => Or.inl rfl⟩
  | cons g vec ih =>
    intro messageMap result h
    simp only [disableOwned] at h
    by_cases h1 : g > messageMap.length
    · rw [if_pos h1] at h
      exact ih messageMap result h
    · rw [if_neg h1] at h
      by_cases h2 : g < messageMap.length
      · rw [if_pos h2] at h
        obtain ⟨hlen, hget⟩ := ih _ result h
        refine ⟨by rw [hlen, List.length_set], fun i => ?_⟩
        rcases hget i with hi | hi
        · rw [hi, List.getElem?_set]
          by_cases hgi : g = i
          · subst hgi
            right
            rw [if_pos rfl, if_pos h2]
          · left
            rw [if_neg hgi]
        · exact Or.inr hi
      · rw [if_neg h2] at h
        cases h

/-- `TSUnloadEventHandler` keeps the size of the registry and leaves in each
slot either what was there or the disabled empty descriptor. -/
theorem TSUnloadEventHandler_getElem? {π : Type} (s t : State π) (sname : String)
    (h : TSUnloadEventHandler s sname = .ok t) :
    t.messageMap.length = s.messageMap.length ∧
      ∀ i : Nat, t.messageMap[i]? = s.messageMap[i]? ∨ t.messageMap[i]? = some MessageHandle.empty := by
  unfold TSUnloadEventHandler at h
  simp only at h
  cases hm : unloadMessages s ((s.modIds sname).getD 0) with
  | error e => rw [hm] at h; cases h
  | ok p =>
    obtain ⟨messageMap, messageModMap⟩ := p
    rw [hm] at h
    simp only at h
    cases he : unloadEvents s sname with
    | error e => rw [he] at h; cases h
    | ok q =>
      obtain ⟨reloads, eventHandlers⟩ := q
      rw [he] at h
      simp only [Except.ok.injEq] at h
      subst h
      simp only
      unfold unloadMessages at hm
      cases hv : s.messageModMap ((s.modIds sname).getD 0) with
      | none =>
        rw [hv] at hm
        simp only [Except.ok.injEq, Prod.mk.injEq] at hm
        rw [← hm.1]
        exact ⟨rfl, fun i => Or.inl rfl⟩
      | some vec =>
        rw [hv] at hm
        simp only at hm
        cases hd : disableOwned vec s.messageMap with
        | error e => rw [hd] at hm; cases hm
        | ok mm =>
          rw [hd] at hm
          simp only [Except.ok.injEq, Prod.mk.injEq] at hm
          rw [← hm.1]
          exact disableOwned_getElem? vec s.messageMap mm hd

/-- Slot by slot, what `AddMessageListener` leaves in the registry. -/
theorem AddMessageListener_getElem? {π : Type} (s : State π) (opcode func i : Nat) :
    (AddMessageListener s opcode func).messageMap[i]? =
      (s.messageMap[i]?).map (fun h =>
        if opcode = i then { h with listeners := h.listeners ++ [func] } else h) := by
  unfold AddMessageListener
  by_cases hge : opcode ≥ s.messageMap.length
  · rw [if_pos hge]
    by_cases hi : opcode = i
    · subst hi
      rw [List.getElem?_eq_none hge]
      rfl
    · cases s.messageMap[i]? with
      | none => rfl
      | some h => simp [hi]
  · rw [if_neg hge]
    simp only [List.getElem?_modify]
    rfl

/-- The unload loop leaves every slot whose opcode is not in the list
unchanged. -/
theorem disableOwned_frame {π : Type} (vec : List Nat) :
    ∀ (messageMap result : List (MessageHandle π)),
      disableOwned vec messageMap = .ok result →
      ∀ i : Nat, i ∉ vec → result[i]? = messageMap[i]? := by
  induction vec with
  | nil =>
    intro messageMap result h i _
    simp only [disableOwned, Except.ok.injEq] at h
    rw [h]
  | cons g vec ih =>
    intro messageMap result h i hi
    have hgi : g ≠ i := fun e => hi (by simp [e])
    have hiv : i ∉ vec := fun e => hi (by simp [e])
    simp only [disableOwned] at h
    by_cases h1 : g > messageMap.length
    · rw [if_pos h1] at h
      exact ih messageMap result h i hiv
    · rw [if_neg h1] at h
      by_cases h2 : g < messageMap.length
      · rw [if_pos h2] at h
        rw [ih _ result h i hiv, List.getElem?_set, if_neg hgi]
      · rw [if_neg h2] at h
        cases h

/-- The ids stored in `modIds` are all 0: the only writes are the default
insertions of `modIds[sname]` in `TSUnloadEventHandler`. -/
theorem modIds_zero {π : Type} {allowed : Nat → Prop} {s : State π}
    (hs : ReachableWith allowed s) :
    ∀ (sname : String) (id : Nat), s.modIds sname = some id → id = 0 := by
  induction hs with
  | initial w =>
    intro sname id h
    cases h
  | load sname _ ih => exact ih
  | @unload s0 t sname _ hu ih =>
    intro name id h
    unfold TSUnloadEventHandler at hu
    simp only at hu
    cases hm : unloadMessages s0 ((s0.modIds sname).getD 0) with
    | error e => rw [hm] at hu; cases hu
    | ok p =>
      rw [hm] at hu
      simp only at hu
      cases he : unloadEvents s0 sname with
      | error e => rw [he] at hu; cases hu
      | ok q =>
        rw [he] at hu
        simp only [Except.ok.injEq] at hu
        subst hu
        simp only [Function.update_apply] at h
        by_cases hn : name = sname
        · rw [if_pos hn] at h
          simp only [Option.some.injEq] at h
          subst h
          cases hold : s0.modIds sname with
          | none => rfl
          | some id0 => exact ih sname id0 hold
        · rw [if_neg hn] at h
          exact ih name id h
  | register modid opcode size c _ _ _ _ ih => exact ih
  | @listen s0 opcode func _ _ ih =>
    intro name id h
    unfold AddMessageListener at h
    by_cases hge : opcode ≥ s0.messageMap.length
    · rw [if_pos hge] at h
      exact ih name id h
    · rw [if_neg hge] at h
      exact ih name id h

/-- In every reachable state an enabled descriptor has a constructor. -/
theorem enabled_has_constructor {π : Type} {allowed : Nat → Prop} {s : State π}
    (hs : ReachableWith allowed s) :
    ∀ (i : Nat) (h : MessageHandle π),
      s.messageMap[i]? = some h → h.enabled = true → ∃ c, h.constructor = some c := by
  induction hs with
  | initial w =>
    intro i h hi
    simp [State.initial] at hi
  | load sname _ ih => exact ih
  | unload sname _ hu ih =>
    intro i h hi hen
    rcases (TSUnloadEventHandler_getElem? _ _ sname hu).2 i with hsame | hempty
    · exact ih i h (hsame ▸ hi) hen
    · rw [hempty] at hi
      simp only [Option.some.injEq] at hi
      subst hi
      cases hen
  | @register s0 modid opcode size c _ _ _ _ ih =>
    intro i h hi hen
    rw [RegisterMessage_getElem?] at hi
    by_cases h1 : i = opcode
    · rw [if_pos h1] at hi
      simp only [Option.some.injEq] at hi
      subst hi
      exact ⟨c, rfl⟩
    · rw [if_neg h1] at hi
      by_cases h2 : i < s0.messageMap.length
      · rw [if_pos h2] at hi
        exact ih i h hi hen
      · rw [if_neg h2] at hi
        by_cases h3 : i < opcode + 1
        · rw [if_pos h3] at hi
          simp only [Option.some.injEq] at hi
          subst hi
          cases hen
        · rw [if_neg h3] at hi
          cases hi
  | @listen s0 opcode func _ _ ih =>
    intro i h hi hen
    rw [AddMessageListener_getElem?] at hi
    cases hold : s0.messageMap[i]? with
    | none => rw [hold] at hi; cases hi
    | some h0 =>
      rw [hold] at hi
      simp only [Option.map_some', Option.some.injEq] at hi
      subst hi
      by_cases hoi : opcode = i
      · rw [if_pos hoi] at hen ⊢
        exact ih i h0 hold hen
      · rw [if_neg hoi] at hen ⊢
        exact ih i h0 hold hen

theorem registered_reachable : Reachable registered :=
  ReachableWith.listen 5 77
    (ReachableWith.register 1 5 3 id
      (ReachableWith.load "b" (ReachableWith.load "a" (ReachableWith.initial _)))
      trivial (by decide) (by decide))
    (by decide)

/-! ## Dispatch to a slot of the registry -/

/-- What the handler does once both header checks have passed. -/
theorem handleAddonNetworkMessage_of_passes {π : Type} (decode : List Nat → List Nat)
    (s : State π) (player type lang : Nat) (msg : List Nat)
    (hp : PassesHeaderChecks decode msg) :
    handleAddonNetworkMessage decode s player type lang msg player =
      if readU16 (decoded decode msg) 4 ≥ s.messageMap.length then
        .ok ⟨true, some (decoded decode msg), []⟩
      else
        match s.messageMap[readU16 (decoded decode msg) 4]? with
        | none => .error .outOfBounds
        | some handler =>
          if handler.size ≠ (decoded decode msg).length - 6 ∨ handler.enabled = false then
            .ok ⟨true, some (decoded decode msg), []⟩
          else
            match handler.fire player ((decoded decode msg).drop 6) with
            | .ok calls => .ok ⟨true, some (decoded decode msg), calls⟩
            | .error e => .error e := by
  obtain ⟨⟨h1, h2⟩, h3, h4, h5⟩ := hp
  unfold decoded at h3 h4 h5 ⊢
  unfold handleAddonNetworkMessage
  simp only [ne_eq, not_true_eq_false, if_false]
  rw [if_neg (by omega), if_neg (by rw [h2]; simp), if_neg (by omega), if_neg (by omega),
    if_neg (by rw [h5]; simp)]

/-- The dispatch of a frame that fits the decode buffer. The decoded bytes are
spelled out: four header bytes reading 1007688, the opcode bytes `lo` and `hi`,
then a payload of 1 to 244 bytes. In a reachable state where the opcode
`lo + 256 * hi` is below the registry size the handler returns handled = true;
when the slot of that opcode is enabled and its expected size is the payload
length, the calls made are exactly one call per listener of the slot, in the
order of the listener list, each with the payload that the slot's constructor
builds from the payload bytes; otherwise no call is made. -/
theorem dispatch_within_buffer {π : Type} (decode : List Nat → List Nat) (s : State π)
    (player type lang : Nat) (msg : List Nat) (b0 b1 b2 b3 lo hi : Nat) (payload : List Nat)
    (hs : Reachable s) (hpre : PassesPreDecode msg)
    (hdec : decoded decode msg = b0 :: b1 :: b2 :: b3 :: lo :: hi :: payload)
    (hmagic : b0 + 256 * b1 + 65536 * b2 + 16777216 * b3 = 1007688)
    (h1 : 1 ≤ payload.length) (h244 : payload.length ≤ 244)
    (hop : lo + 256 * hi < s.messageMap.length) :
    ∃ handler calls,
      s.messageMap[lo + 256 * hi]? = some handler ∧
      handleAddonNetworkMessage decode s player type lang msg player
        = .ok ⟨true, some (b0 :: b1 :: b2 :: b3 :: lo :: hi :: payload), calls⟩ ∧
      (handler.enabled = true ∧ handler.size = payload.length →
        ∃ c, handler.constructor = some c ∧
          calls = handler.listeners.map (fun f => ⟨f, player, c payload⟩)) ∧
      (¬ (handler.enabled = true ∧ handler.size = payload.length) → calls = []) := by
  have hlen : (decoded decode msg).length = payload.length + 6 := by
    rw [hdec]
    simp only [List.length_cons]
  have hu32 : readU32 (decoded decode msg) 0 = 1007688 := by
    rw [hdec]
    simp only [readU32, List.getD_cons_succ, List.getD_cons_zero]
    exact hmagic
  have hu16 : readU16 (decoded decode msg) 4 = lo + 256 * hi := by
    rw [hdec]
    simp only [readU16, List.getD_cons_succ, List.getD_cons_zero]
  have hdrop : (decoded decode msg).drop 6 = payload := by
    rw [hdec]
    simp only [List.drop_succ_cons, List.drop_zero]
  have hp : PassesHeaderChecks decode msg := ⟨hpre, by omega, by omega, hu32⟩
  have hget := List.getElem?_eq_getElem hop
  rw [handleAddonNetworkMessage_of_passes decode s player type lang msg hp, hu16,
    if_neg (by omega), hget, hlen, hdrop, hdec]
  simp only [Nat.add_sub_cancel]
  by_cases hen : s.messageMap[lo + 256 * hi].enabled = true ∧
      s.messageMap[lo + 256 * hi].size = payload.length
  · obtain ⟨c, hc⟩ := enabled_has_constructor hs _ _ hget hen.1
    refine ⟨_, _, rfl, ?_, fun _ => ⟨c, hc, rfl⟩, fun hn => absurd hen hn⟩
    rw [if_neg (by simp [hen.1, hen.2])]
    simp only [MessageHandle.fire, hc]
  · refine ⟨_, [], rfl, ?_, fun h => absurd h hen, fun _ => rfl⟩
    rw [if_pos]
    by_cases h1 : s.messageMap[lo + 256 * hi].enabled = true
    · left
      intro h2
      exact hen ⟨h1, h2⟩
    · right
      simpa using h1

/-! ## C7: dispatch to an opcode that was never registered -/

/-- While opcode `o` has never been registered, its slot is beyond the registry
or disabled. -/
theorem unregistered_disabled {π : Type} {o : Nat} {s : State π}
    (hs : ReachableWithout o s) :
    ∀ h : MessageHandle π, s.messageMap[o]? = some h → h.enabled = false := by
  unfold ReachableWithout at hs
  induction hs with
  | initial w =>
    intro h hi
    simp [State.initial] at hi
  | load sname _ ih => exact ih
  | unload sname _ hu ih =>
    intro h hi
    rcases (TSUnloadEventHandler_getElem? _ _ sname hu).2 o with hsame | hempty
    · exact ih h (hsame ▸ hi)
    · rw [hempty] at hi
      simp only [Option.some.injEq] at hi
      subst hi
      rfl
  | @register s0 modid opcode size c _ hallowed _ _ ih =>
    intro h hi
    rw [RegisterMessage_getElem?, if_neg (Ne.symm hallowed)] at hi
    by_cases h2 : o < s0.messageMap.length
    · rw [if_pos h2] at hi
      exact ih h hi
    · rw [if_neg h2] at hi
      by_cases h3 : o < opcode + 1
      · rw [if_pos h3] at hi
        simp only [Option.some.injEq] at hi
        subst hi
        rfl
      · rw [if_neg h3] at hi
        cases hi
  | @listen s0 opcode func _ _ ih =>
    intro h hi
    rw [AddMessageListener_getElem?] at hi
    cases hold : s0.messageMap[o]? with
    | none => rw [hold] at hi; cases hi
    | some h0 =>
      rw [hold] at hi
      simp only [Option.map_some', Option.some.injEq] at hi
      subst hi
      by_cases hoi : opcode = o
      · rw [if_pos hoi]
        exact ih h0 hold
      · rw [if_neg hoi]
        exact ih h0 hold

theorem le32_postDecodeHeader : le32 1007688 = [72, 96, 15, 0] := rfl

theorem innerFrame_eq (o : Nat) (payload : List Nat) :
    innerFrame o payload = 72 :: 96 :: 15 :: 0 :: (o % 256) :: (o / 256 % 256) :: payload := by
  simp only [innerFrame, le32_postDecodeHeader, le16, List.cons_append, List.nil_append]

theorem readU32_innerFrame (o : Nat) (payload : List Nat) :
    readU32 (innerFrame o payload) 0 = 1007688 := by
  simp only [innerFrame_eq, readU32, List.getD_cons_succ, List.getD_cons_zero]

theorem readU16_innerFrame (o : Nat) (payload : List Nat) (ho : o < 65536) :
    readU16 (innerFrame o payload) 4 = o := by
  simp only [innerFrame_eq, readU16, List.getD_cons_succ, List.getD_cons_zero]
  omega

theorem innerFrame_length (o : Nat) (payload : List Nat) :
    (innerFrame o payload).length = payload.length + 6 := by
  simp only [innerFrame_eq, List.length_cons]

theorem innerFrame_drop (o : Nat) (payload : List Nat) :
    (innerFrame o payload).drop 6 = payload := by
  simp only [innerFrame_eq, List.drop_succ_cons, List.drop_zero]

/-- What the handler does when the pre-decode check has passed and the decoded
bytes are at most 6. -/
theorem handleAddonNetworkMessage_of_short {π : Type} (decode : List Nat → List Nat)
    (s : State π) (player type lang : Nat) (msg : List Nat)
    (hpre : PassesPreDecode msg) (hshort : (decoded decode msg).length ≤ 6) :
    handleAddonNetworkMessage decode s player type lang msg player
      = .ok ⟨false, some (decoded decode msg), []⟩ := by
  obtain ⟨h1, h2⟩ := hpre
  unfold decoded at hshort ⊢
  unfold handleAddonNetworkMessage
  simp only [ne_eq, not_true_eq_false, if_false]
  rw [if_neg (by omega), if_neg (by rw [h2]; simp), if_neg (by omega), if_pos (by omega)]

/-- C7, as the code has it. In a state where opcode `o` has never been
registered (its slot is beyond the registry, or in range and never assigned),
a self-addressed message that passes the pre-decode check and decodes to the
inner frame of opcode `o` with a payload of at most 244 bytes makes no listener
call; it returns handled = true when the payload is not empty and
handled = false when it is empty. -/
theorem dispatch_unregistered_opcode {π : Type} (decode : List Nat → List Nat) (s : State π)
    (player type lang : Nat) (msg : List Nat) (o : Nat) (payload : List Nat)
    (hs : ReachableWithout o s) (ho : o < 65536)
    (hpre : PassesPreDecode msg) (hframe : decoded decode msg = innerFrame o payload)
    (h244 : payload.length ≤ 244) :
    handleAddonNetworkMessage decode s player type lang msg player
      = .ok ⟨!payload.isEmpty, some (innerFrame o payload), []⟩ := by
  by_cases h1 : payload = []
  · subst h1
    rw [handleAddonNetworkMessage_of_short decode s player type lang msg hpre
      (by rw [hframe, innerFrame_length]; simp), hframe]
    rfl
  · have hpos : 1 ≤ payload.length := by
      cases payload with
      | nil => exact absurd rfl h1
      | cons x xs => simp
    have hne : (!payload.isEmpty) = true := by
      cases payload with
      | nil => exact absurd rfl h1
      | cons x xs => rfl
    have hp : PassesHeaderChecks decode msg := by
      refine ⟨hpre, ?_, ?_, ?_⟩
      · rw [hframe, innerFrame_length]; omega
      · rw [hframe, innerFrame_length]; omega
      · rw [hframe, readU32_innerFrame]
    rw [handleAddonNetworkMessage_of_passes decode s player type lang msg hp, hframe,
      readU16_innerFrame o payload ho, hne]
    by_cases hge : o ≥ s.messageMap.length
    · rw [if_pos hge]
    · rw [if_neg hge, List.getElem?_eq_getElem (by omega)]
      simp only
      rw [if_pos (Or.inr (unregistered_disabled hs _ (List.getElem?_eq_getElem (by omega))))]

/-- C7, witness: opcode 7 was never registered in the scenario `registered`,
whose registry has 6 slots; the frame with opcode 7 and payload 1, 2, 3. -/
theorem dispatch_unregistered_opcode_witness :
    handleAddonNetworkMessage decodeBase64 registered 9 0 0
        (encodeBase64 (innerFrame 7 [1, 2, 3])) 9
      = .ok ⟨true, some (innerFrame 7 [1, 2, 3]), []⟩ :=
  dispatch_unregistered_opcode decodeBase64 registered 9 0 0
    (encodeBase64 (innerFrame 7 [1, 2, 3])) 7 [1, 2, 3]
    (ReachableWith.listen 5 77
      (ReachableWith.register 1 5 3 id
        (ReachableWith.load "b" (ReachableWith.load "a" (ReachableWith.initial _)))
        (by decide) (by decide) (by decide))
      (by decide))
    (by decide) (by decide) (by decide) (by decide)

/-- C7, counterexample. Opcode 0 has never been registered in the initial
state; the frame with correct headers, opcode 0 and the empty payload decodes
to 6 bytes and is rejected as too short: handled = false. -/
theorem dispatch_empty_payload_not_handled :
    ReachableWithout 0 start ∧
    PassesPreDecode (encodeBase64 (innerFrame 0 [])) ∧
    decoded decodeBase64 (encodeBase64 (innerFrame 0 [])) = innerFrame 0 [] ∧
    handleAddonNetworkMessage decodeBase64 start 9 0 0 (encodeBase64 (innerFrame 0 [])) 9
      = .ok ⟨false, some (innerFrame 0 []), []⟩ :=
  ⟨ReachableWith.initial _, by decide, by decide, rfl⟩

/-! ## C6: the wire format -/

theorem base64Value_base64Char : ∀ v, v < 64 → base64Value (base64Char v) = some v := by
  decide

theorem base64Value_pad : base64Value 61 = none := rfl

/-- Standard base64 decoding inverts standard base64 encoding on bytes. -/
theorem decodeBase64_encodeBase64 :
    ∀ bytes : List Nat, (∀ b ∈ bytes, b < 256) → decodeBase64 (encodeBase64 bytes) = bytes
  | [], _ => rfl
  | [a], h => by
    have ha : a < 256 := h a (by simp)
    simp only [encodeBase64, decodeBase64]
    rw [base64Value_base64Char _ (by omega), base64Value_base64Char _ (by omega),
      base64Value_pad]
    simp only [and_self, if_true, List.cons.injEq, and_true]
    omega
  | [a, b], h => by
    have ha : a < 256 := h a (by simp)
    have hb : b < 256 := h b (by simp)
    simp only [encodeBase64, decodeBase64]
    rw [base64Value_base64Char _ (by omega), base64Value_base64Char _ (by omega),
      base64Value_base64Char _ (by omega), base64Value_pad]
    simp only [if_true, List.cons.injEq, and_true]
    omega
  | a :: b :: c :: rest, h => by
    have ha : a < 256 := h a (by simp)
    have hb : b < 256 := h b (by simp)
    have hc : c < 256 := h c (by simp)
    have hrest : ∀ x ∈ rest, x < 256 := fun x hx => h x (by simp [hx])
    simp only [encodeBase64, decodeBase64]
    rw [base64Value_base64Char _ (by omega), base64Value_base64Char _ (by omega),
      base64Value_base64Char _ (by omega), base64Value_base64Char _ (by omega)]
    simp only [List.cons.injEq]
    refine ⟨by omega, by omega, by omega, decodeBase64_encodeBase64 rest hrest⟩

/-- The base64 text of an inner frame begins with the characters `SGAP` and has
at least eight characters. -/
theorem encodeBase64_innerFrame (o : Nat) (payload : List Nat) :
    ∃ c1 c2 c3 c4, encodeBase64 (innerFrame o payload)
      = 83 :: 71 :: 65 :: 80 :: c1 :: c2 :: c3 :: c4 :: encodeBase64 payload := by
  rw [innerFrame_eq]
  exact ⟨_, _, _, _, rfl⟩

theorem leadingOffset_append (ws rest : List Nat) (c : Nat)
    (hws : ∀ x ∈ ws, x = 9 ∨ x = 32) (hc : ¬ (c = 9 ∨ c = 32)) :
    leadingOffset (ws ++ c :: rest) = ws.length := by
  induction ws with
  | nil => simp [leadingOffset, hc]
  | cons x xs ih =>
    have hx : x = 9 ∨ x = 32 := hws x (by simp)
    have hxs : ∀ y ∈ xs, y = 9 ∨ y = 32 := fun y hy => hws y (by simp [hy])
    rw [List.cons_append, leadingOffset, if_pos hx, ih hxs, List.length_cons]

theorem innerFrame_bytes (o : Nat) (payload : List Nat) (hbytes : ∀ b ∈ payload, b < 256) :
    ∀ b ∈ innerFrame o payload, b < 256 := by
  intro b hb
  rw [innerFrame_eq] at hb
  simp only [List.mem_cons] at hb
  rcases hb with h | h | h | h | h | h | h
  · omega
  · omega
  · omega
  · omega
  · omega
  · omega
  · exact hbytes b h

/-- The base64 text of an inner frame, after any run of tabs and spaces, passes
the pre-decode check and decodes to the inner frame. -/
theorem encoded_frame_decodes (ws payload : List Nat) (o : Nat)
    (hws : ∀ x ∈ ws, x = 9 ∨ x = 32) (hbytes : ∀ b ∈ payload, b < 256) :
    PassesPreDecode (ws ++ encodeBase64 (innerFrame o payload)) ∧
      decoded decodeBase64 (ws ++ encodeBase64 (innerFrame o payload))
        = innerFrame o payload := by
  obtain ⟨c1, c2, c3, c4, henc⟩ := encodeBase64_innerFrame o payload
  have hoff : leadingOffset (ws ++ encodeBase64 (innerFrame o payload)) = ws.length := by
    rw [henc]
    exact leadingOffset_append ws _ 83 hws (by decide)
  refine ⟨⟨?_, ?_⟩, ?_⟩
  · rw [hoff, henc]
    simp only [List.length_append, List.length_cons]
    omega
  · rw [hoff, List.drop_left, henc]
    simp only [readU32, List.getD_cons_succ, List.getD_cons_zero]
  · unfold decoded
    rw [hoff, List.drop_left]
    exact decodeBase64_encodeBase64 _ (innerFrame_bytes o payload hbytes)

/-- C6, as the code has it. The text to send is the standard base64 encoding of
the inner frame alone, optionally after tabs and spaces: its first four
characters are already the bytes of `0x50414753` in little-endian order. For
every opcode below 65536 and every payload of 1 to 244 bytes the handler
decodes that text to the inner frame, reads opcode `o` and those payload bytes
from it, and, with slot `o` enabled with the payload's size and constructor
`c`, calls every listener of the slot with `c payload`. -/
theorem wire_frame_round_trip {π : Type} (s : State π) (player type lang : Nat)
    (ws payload : List Nat) (o : Nat) (handler : MessageHandle π) (c : List Nat → π)
    (hws : ∀ x ∈ ws, x = 9 ∨ x = 32) (ho : o < 65536)
    (hbytes : ∀ b ∈ payload, b < 256) (h1 : 1 ≤ payload.length) (h244 : payload.length ≤ 244)
    (hslot : s.messageMap[o]? = some handler) (hen : handler.enabled = true)
    (hsize : handler.size = payload.length) (hc : handler.constructor = some c) :
    (encodeBase64 (innerFrame o payload)).take 4 = le32 0x50414753 ∧
    decoded decodeBase64 (ws ++ encodeBase64 (innerFrame o payload)) = innerFrame o payload ∧
    readU16 (innerFrame o payload) 4 = o ∧ (innerFrame o payload).drop 6 = payload ∧
    handleAddonNetworkMessage decodeBase64 s player type lang
        (ws ++ encodeBase64 (innerFrame o payload)) player
      = .ok ⟨true, some (innerFrame o payload),
          handler.listeners.map (fun f => ⟨f, player, c payload⟩)⟩ := by
  obtain ⟨hpre, hdec⟩ := encoded_frame_decodes ws payload o hws hbytes
  have hp : PassesHeaderChecks decodeBase64 (ws ++ encodeBase64 (innerFrame o payload)) := by
    refine ⟨hpre, ?_, ?_, ?_⟩
    · rw [hdec, innerFrame_length]; omega
    · rw [hdec, innerFrame_length]; omega
    · rw [hdec, readU32_innerFrame]
  refine ⟨?_, hdec, readU16_innerFrame o payload ho, innerFrame_drop o payload, ?_⟩
  · obtain ⟨c1, c2, c3, c4, henc⟩ := encodeBase64_innerFrame o payload
    rw [henc]
    rfl
  · have hlt : o < s.messageMap.length := by
      by_contra hge
      rw [List.getElem?_eq_none (by omega)] at hslot
      cases hslot
    rw [handleAddonNetworkMessage_of_passes decodeBase64 s player type lang _ hp, hdec,
      readU16_innerFrame o payload ho, if_neg (by omega), hslot]
    simp only
    rw [if_neg (by rw [innerFrame_length, hsize, hen]; simp), innerFrame_drop]
    simp only [MessageHandle.fire, hc]

/-- C6, witness: opcode 5 and payload 1, 2, 3 after a space and a tab, in the
scenario where opcode 5 is registered with size 3 and listener 77. -/
theorem wire_frame_round_trip_witness :
    (encodeBase64 (innerFrame 5 [1, 2, 3])).take 4 = le32 0x50414753 ∧
    decoded decodeBase64 ([32, 9] ++ encodeBase64 (innerFrame 5 [1, 2, 3]))
      = innerFrame 5 [1, 2, 3] ∧
    readU16 (innerFrame 5 [1, 2, 3]) 4 = 5 ∧ (innerFrame 5 [1, 2, 3]).drop 6 = [1, 2, 3] ∧
    handleAddonNetworkMessage decodeBase64 registered 9 0 0
        ([32, 9] ++ encodeBase64 (innerFrame 5 [1, 2, 3])) 9
      = .ok ⟨true, some (innerFrame 5 [1, 2, 3]),
          [77].map (fun f => ⟨f, 9, id [1, 2, 3]⟩)⟩ :=
  wire_frame_round_trip registered 9 0 0 [32, 9] [1, 2, 3] 5 ⟨3, some id, true, [77]⟩ id
    (by decide) (by decide) (by decide) (by decide) (by decide) rfl rfl rfl rfl

/-- C6, counterexample. The frame as the spec words it, the four bytes of
`0x50414753` followed by the base64 text of the inner frame, for opcode 5 and
payload 1, 2, 3: the handler decodes from the four header bytes on, obtains
three more bytes in front of the inner frame and rejects the message at the
post-decode header check, though opcode 5 is registered and enabled with
size 3. And with the empty payload, the base64 text of the inner frame alone
decodes to 6 bytes and is rejected as too short, though opcode 5 is registered
and enabled with size 0. -/
theorem spec_wire_frame_rejected :
    specWireFrame 5 [1, 2, 3] = bytesOf "SGAPSGAPAAUAAQID" ∧
    registered.messageMap[5]? = some ⟨3, some id, true, [77]⟩ ∧
    handleAddonNetworkMessage decodeBase64 registered 9 0 0 (specWireFrame 5 [1, 2, 3]) 9
      = .ok ⟨false, some (72 :: 96 :: 15 :: innerFrame 5 [1, 2, 3]), []⟩ ∧
    (AddMessageListener (RegisterMessage twoMods 1 5 0 id) 5 77).messageMap[5]?
      = some ⟨0, some id, true, [77]⟩ ∧
    handleAddonNetworkMessage decodeBase64
        (AddMessageListener (RegisterMessage twoMods 1 5 0 id) 5 77) 9 0 0
        (encodeBase64 (innerFrame 5 [])) 9
      = .ok ⟨false, some (innerFrame 5 []), []⟩ :=
  ⟨rfl, rfl, rfl, rfl, rfl⟩

/-! ## C11 and C12: rejection before the decode -/

/-- C11. When the sender is not the receiver, `handleAddonNetworkMessage`
returns handled = false whatever the message, the decoder and the registry
are: the `AddonOnMessage` event is not fired and no listener is called. The
result does not depend on the decoder, which is not run, and the handler has
no access by which it could change the registry. -/
theorem sender_mismatch_not_handled {π : Type} (decode : List Nat → List Nat) (s : State π)
    (player type lang : Nat) (msg : List Nat) (receiver : Nat) (h : player ≠ receiver) :
    handleAddonNetworkMessage decode s player type lang msg receiver
      = .ok ⟨false, none, []⟩ := by
  unfold handleAddonNetworkMessage
  rw [if_pos h]

/-- C11, witness: player 9 sends the well-formed frame of opcode 5 to
player 8. -/
theorem sender_mismatch_not_handled_witness :
    handleAddonNetworkMessage decodeBase64 registered 9 0 0 (bytesOf "SGAPAAUAAQID") 8
      = .ok ⟨false, none, []⟩ :=
  sender_mismatch_not_handled decodeBase64 registered 9 0 0 (bytesOf "SGAPAAUAAQID") 8
    (by decide)

theorem leadingOffset_le (msg : List Nat) : leadingOffset msg ≤ msg.length := by
  induction msg with
  | nil => simp [leadingOffset]
  | cons c cs ih =>
    simp only [leadingOffset, List.length_cons]
    split_ifs <;> omega

theorem readU32Checked_of_length (bytes : List Nat) (h : 4 ≤ bytes.length) :
    readU32Checked bytes 0 = some (readU32 bytes 0) := by
  match bytes, h with
  | a :: b :: c :: d :: rest, _ =>
    simp [readU32Checked, readU32]

/-- C12. For a self-addressed message: when at most 4 characters remain after
the leading tabs and spaces, or the first four of them do not read
`0x50414753`, the handler returns handled = false, the same for every decoder
(which is not run), with no event fired and no listener called. The offset
never exceeds the message size, and whenever the size check lets the header
read happen, its four bytes lie within the message. -/
theorem rejected_before_decode {π : Type} (decode : List Nat → List Nat) (s : State π)
    (player type lang : Nat) (msg : List Nat) :
    (msg.length - leadingOffset msg ≤ 4
        ∨ readU32 (msg.drop (leadingOffset msg)) 0 ≠ 0x50414753 →
      handleAddonNetworkMessage decode s player type lang msg player
        = .ok ⟨false, none, []⟩) ∧
    leadingOffset msg ≤ msg.length ∧
    (4 < msg.length - leadingOffset msg →
      leadingOffset msg + 4 < msg.length ∧
      readU32Checked (msg.drop (leadingOffset msg)) 0
        = some (readU32 (msg.drop (leadingOffset msg)) 0)) := by
  refine ⟨?_, leadingOffset_le msg, ?_⟩
  · intro h
    unfold handleAddonNetworkMessage
    simp only [ne_eq, not_true_eq_false, if_false]
    by_cases h1 : msg.length - leadingOffset msg ≤ 4
    · rw [if_pos h1]
    · rw [if_neg h1]
      rcases h with h | h
      · exact absurd h h1
      · rw [if_pos h]
  · intro h
    refine ⟨by omega, readU32Checked_of_length _ ?_⟩
    rw [List.length_drop]
    omega

/-! ## C15: adding a listener -/

/-- C15. `AddMessageListener(opcode, func)` with the opcode at or beyond the
registry size leaves the registry as it is; with the opcode below the size it
appends `func` at the end of the listener list of that slot and keeps the
slot's size, constructor and enabled flag; every other slot and the registry
size are unchanged in both cases. -/
theorem AddMessageListener_registry {π : Type} (s : State π) (opcode func : Nat) :
    (s.messageMap.length ≤ opcode →
      (AddMessageListener s opcode func).messageMap = s.messageMap) ∧
    (AddMessageListener s opcode func).messageMap.length = s.messageMap.length ∧
    (∀ h : MessageHandle π, s.messageMap[opcode]? = some h →
      (AddMessageListener s opcode func).messageMap[opcode]?
        = some ⟨h.size, h.constructor, h.enabled, h.listeners ++ [func]⟩) ∧
    (∀ i : Nat, i ≠ opcode →
      (AddMessageListener s opcode func).messageMap[i]? = s.messageMap[i]?) := by
  refine ⟨?_, ?_, ?_, ?_⟩
  · intro h
    unfold AddMessageListener
    rw [if_pos h]
  · unfold AddMessageListener
    split_ifs
    · rfl
    · simp only [List.length_modify]
  · intro h hh
    rw [AddMessageListener_getElem?, hh]
    simp
  · intro i hi
    rw [AddMessageListener_getElem?]
    cases s.messageMap[i]? with
    | none => rfl
    | some h => simp [Ne.symm hi]

/-! ## C13: ownership sets -/

theorem RegisterMessage_ownedBy {π : Type} (s : State π) (modid opcode size : Nat)
    (c : List Nat → π) (m : Nat) :
    ownedBy (RegisterMessage s modid opcode size c) m =
      if m = modid then ownedBy s modid ++ [opcode] else ownedBy s m := by
  unfold ownedBy RegisterMessage
  by_cases h : m = modid
  · subst h
    simp only [Function.update_same, if_true]
  · simp only [Function.update_noteq h, if_neg h]

/-- C13, as the code has it. Registering opcode `o` under mod id `b` while the
ownership vector of another mod id `a` contains `o` appends `o` to the vector
of `b` and leaves the vector of `a`, like that of every other id, as it was:
afterwards `o` is in both. The transfer happens in the registry only, where
slot `o` now holds the descriptor registered under `b`. -/
theorem RegisterMessage_shares_ownership {π : Type} (s : State π) (a b o size : Nat)
    (c : List Nat → π) (hab : a ≠ b) (ha : o ∈ ownedBy s a) :
    o ∈ ownedBy (RegisterMessage s b o size c) a ∧
    o ∈ ownedBy (RegisterMessage s b o size c) b ∧
    ownedBy (RegisterMessage s b o size c) b = ownedBy s b ++ [o] ∧
    (∀ m, m ≠ b → ownedBy (RegisterMessage s b o size c) m = ownedBy s m) ∧
    (RegisterMessage s b o size c).messageMap[o]? = some ⟨size, some c, true, []⟩ := by
  refine ⟨?_, ?_, ?_, ?_, ?_⟩
  · rw [RegisterMessage_ownedBy, if_neg hab]
    exact ha
  · rw [RegisterMessage_ownedBy, if_pos rfl]
    simp
  · rw [RegisterMessage_ownedBy, if_pos rfl]
  · intro m hm
    rw [RegisterMessage_ownedBy, if_neg hm]
  · rw [RegisterMessage_getElem?, if_pos rfl]
    rfl

/-- C13, witness: opcode 5 is registered under mod id 0 and then under mod
id 1. -/
theorem RegisterMessage_shares_ownership_witness :
    5 ∈ ownedBy (RegisterMessage (RegisterMessage start 0 5 3 id) 1 5 2 id) 0 ∧
    5 ∈ ownedBy (RegisterMessage (RegisterMessage start 0 5 3 id) 1 5 2 id) 1 ∧
    ownedBy (RegisterMessage (RegisterMessage start 0 5 3 id) 1 5 2 id) 1
      = ownedBy (RegisterMessage start 0 5 3 id) 1 ++ [5] ∧
    (∀ m, m ≠ 1 → ownedBy (RegisterMessage (RegisterMessage start 0 5 3 id) 1 5 2 id) m
      = ownedBy (RegisterMessage start 0 5 3 id) m) ∧
    (RegisterMessage (RegisterMessage start 0 5 3 id) 1 5 2 id).messageMap[5]?
      = some ⟨2, some id, true, []⟩ :=
  RegisterMessage_shares_ownership (RegisterMessage start 0 5 3 id) 0 1 5 2 id
    (by decide) (by decide)

/-- C13, counterexample. After `RegisterMessage(0, 5, ..)` and
`RegisterMessage(1, 5, ..)` from the initial state, opcode 5 is in the
ownership vectors of both mod ids 0 and 1. -/
theorem opcode_in_two_ownership_sets :
    (RegisterMessage (RegisterMessage start 0 5 3 id) 1 5 2 id).messageModMap 0 = some [5] ∧
    (RegisterMessage (RegisterMessage start 0 5 3 id) 1 5 2 id).messageModMap 1 = some [5] :=
  ⟨rfl, rfl⟩

/-! ## The parts of an unload -/

/-- A completed unload is made of its two blocks and the sweep. -/
theorem TSUnloadEventHandler_parts {π : Type} (s t : State π) (sname : String)
    (h : TSUnloadEventHandler s sname = .ok t) :
    ∃ messageMap messageModMap reloads eventHandlers,
      unloadMessages s ((s.modIds sname).getD 0) = .ok (messageMap, messageModMap) ∧
      unloadEvents s sname = .ok (reloads, eventHandlers) ∧
      t = { modIds := Function.update s.modIds sname (some ((s.modIds sname).getD 0))
            reloads := reloads
            eventHandlers := eventHandlers
            messageMap := messageMap
            messageModMap := messageModMap
            world := sweep s.world } := by
  unfold TSUnloadEventHandler at h
  simp only at h
  cases hm : unloadMessages s ((s.modIds sname).getD 0) with
  | error e => rw [hm] at h; cases h
  | ok p =>
    obtain ⟨messageMap, messageModMap⟩ := p
    rw [hm] at h
    simp only at h
    cases he : unloadEvents s sname with
    | error e => rw [he] at h; cases h
    | ok q =>
      obtain ⟨reloads, eventHandlers⟩ := q
      rw [he] at h
      simp only [Except.ok.injEq] at h
      exact ⟨messageMap, messageModMap, reloads, eventHandlers, rfl, rfl, h.symm⟩

/-- When both blocks complete, the unload completes with their results and the
swept world. -/
theorem TSUnloadEventHandler_of_parts {π : Type} (s : State π) (sname : String)
    (messageMap : List (MessageHandle π)) (messageModMap : Nat → Option (List Nat))
    (reloads : List Nat) (eventHandlers : String → Option TSEventHandlers)
    (hm : unloadMessages s ((s.modIds sname).getD 0) = .ok (messageMap, messageModMap))
    (he : unloadEvents s sname = .ok (reloads, eventHandlers)) :
    TSUnloadEventHandler s sname =
      .ok { modIds := Function.update s.modIds sname (some ((s.modIds sname).getD 0))
            reloads := reloads
            eventHandlers := eventHandlers
            messageMap := messageMap
            messageModMap := messageModMap
            world := sweep s.world } := by
  unfold TSUnloadEventHandler
  simp only [hm, he]

/-- The unload loop completes when every opcode of the list is below the
registry size. -/
theorem disableOwned_ok {π : Type} (vec : List Nat) :
    ∀ messageMap : List (MessageHandle π), (∀ g ∈ vec, g < messageMap.length) →
      ∃ result, disableOwned vec messageMap = .ok result := by
  induction vec with
  | nil =>
    intro messageMap _
    exact ⟨messageMap, rfl⟩
  | cons g vec ih =>
    intro messageMap h
    have hg : g < messageMap.length := h g (by simp)
    simp only [disableOwned]
    rw [if_neg (by omega), if_pos hg]
    apply ih
    intro x hx
    rw [List.length_set]
    exact h x (by simp [hx])

/-- The first block of a completed unload keeps the registry size and leaves
each ownership entry as it was or erased. -/
theorem unloadMessages_result {π : Type} (s : State π) (modid : Nat)
    (messageMap : List (MessageHandle π)) (messageModMap : Nat → Option (List Nat))
    (h : unloadMessages s modid = .ok (messageMap, messageModMap)) :
    messageMap.length = s.messageMap.length ∧
      ∀ m, messageModMap m = s.messageModMap m ∨ messageModMap m = none := by
  unfold unloadMessages at h
  cases hv : s.messageModMap modid with
  | none =>
    rw [hv] at h
    simp only [Except.ok.injEq, Prod.mk.injEq] at h
    rw [← h.1, ← h.2]
    exact ⟨rfl, fun m => Or.inl rfl⟩
  | some vec =>
    rw [hv] at h
    simp only at h
    cases hd : disableOwned vec s.messageMap with
    | error e => rw [hd] at h; cases h
    | ok mm =>
      rw [hd] at h
      simp only [Except.ok.injEq, Prod.mk.injEq] at h
      rw [← h.1, ← h.2]
      refine ⟨(disableOwned_getElem? vec s.messageMap mm hd).1, fun m => ?_⟩
      by_cases hmm : m = modid
      · right
        rw [hmm, Function.update_same]
      · left
        rw [Function.update_noteq hmm]

/-- The first block of the unload completes when every owned opcode is below
the registry size. -/
theorem unloadMessages_ok {π : Type} (s : State π) (modid : Nat)
    (hown : ∀ (m : Nat) (vec : List Nat), s.messageModMap m = some vec →
      ∀ g ∈ vec, g < s.messageMap.length) :
    ∃ messageMap messageModMap, unloadMessages s modid = .ok (messageMap, messageModMap) := by
  unfold unloadMessages
  cases hv : s.messageModMap modid with
  | none => exact ⟨_, _, rfl⟩
  | some vec =>
    obtain ⟨mm, hmm⟩ := disableOwned_ok vec s.messageMap (hown modid vec hv)
    simp only [hmm]
    exact ⟨_, _, rfl⟩

theorem AddMessageListener_length {π : Type} (s : State π) (opcode func : Nat) :
    (AddMessageListener s opcode func).messageMap.length = s.messageMap.length := by
  unfold AddMessageListener
  split_ifs
  · rfl
  · simp only [List.length_modify]

/-- In every reachable state every opcode of every ownership vector is below
the registry size. -/
theorem owned_below_size {π : Type} {allowed : Nat → Prop} {s : State π}
    (hs : ReachableWith allowed s) :
    ∀ (m : Nat) (vec : List Nat), s.messageModMap m = some vec →
      ∀ g ∈ vec, g < s.messageMap.length := by
  induction hs with
  | initial w =>
    intro m vec h
    cases h
  | load sname _ ih => exact ih
  | @unload s0 t sname _ hu ih =>
    intro m vec h g hg
    obtain ⟨mm, own, rl, eh, hm, _, ht⟩ := TSUnloadEventHandler_parts s0 t sname hu
    obtain ⟨hlen, hown⟩ := unloadMessages_result s0 _ mm own hm
    subst ht
    simp only at h ⊢
    rw [hlen]
    rcases hown m with hsame | hnone
    · exact ih m vec (hsame ▸ h) g hg
    · rw [hnone] at h
      cases h
  | @register s0 modid opcode size c _ _ _ _ ih =>
    intro m vec h g hg
    rw [RegisterMessage_length]
    by_cases hm : m = modid
    · subst hm
      simp only [RegisterMessage, Function.update_same, Option.some.injEq] at h
      subst h
      rw [List.mem_append] at hg
      rcases hg with hg | hg
      · cases hv : s0.messageModMap m with
        | none =>
          rw [hv] at hg
          cases hg
        | some v =>
          rw [hv] at hg
          have := ih m v hv g hg
          omega
      · simp only [List.mem_singleton] at hg
        omega
    · simp only [RegisterMessage, Function.update_noteq hm] at h
      have := ih m vec h g hg
      omega
  | @listen s0 opcode func _ _ ih =>
    intro m vec h g hg
    have hlen := AddMessageListener_length s0 opcode func
    have hmod : (AddMessageListener s0 opcode func).messageModMap = s0.messageModMap := by
      unfold AddMessageListener
      split_ifs <;> rfl
    rw [hlen]
    rw [hmod] at h
    exact ih m vec h g hg

/-! ## C18: the unload loop stays within the registry -/

/-- C18. In every reachable state every opcode recorded in an ownership vector
is strictly below the registry size, so the loop of `TSUnloadEventHandler`
completes for every mod id without an out-of-bounds write and keeps the
registry size; and no operation decreases the registry size: loading,
unloading and adding a listener keep it, registering can only grow it. -/
theorem unload_loop_in_bounds {π : Type} (s : State π) (hs : Reachable s) :
    (∀ (m : Nat) (vec : List Nat), s.messageModMap m = some vec →
      ∀ g ∈ vec, g < s.messageMap.length) ∧
    (∀ modid, ∃ messageMap messageModMap,
      unloadMessages s modid = .ok (messageMap, messageModMap) ∧
      messageMap.length = s.messageMap.length) ∧
    (∀ sname, (TSLoadEventHandler s sname).messageMap.length = s.messageMap.length) ∧
    (∀ sname t, TSUnloadEventHandler s sname = .ok t →
      t.messageMap.length = s.messageMap.length) ∧
    (∀ modid opcode size (c : List Nat → π),
      s.messageMap.length ≤ (RegisterMessage s modid opcode size c).messageMap.length) ∧
    (∀ opcode func, (AddMessageListener s opcode func).messageMap.length
      = s.messageMap.length) := by
  have hown := owned_below_size hs
  refine ⟨hown, ?_, fun _ => rfl, ?_, ?_, AddMessageListener_length s⟩
  · intro modid
    obtain ⟨mm, own, h⟩ := unloadMessages_ok s modid hown
    exact ⟨mm, own, h, (unloadMessages_result s modid mm own h).1⟩
  · intro sname t h
    exact (TSUnloadEventHandler_getElem? s t sname h).1
  · intro modid opcode size c
    rw [RegisterMessage_length]
    omega

/-- C18, witness: the scenario in which mod 1 owns opcode 5 and the registry
has 6 slots. -/
theorem unload_loop_in_bounds_witness :
    (∀ (m : Nat) (vec : List Nat), registered.messageModMap m = some vec →
      ∀ g ∈ vec, g < registered.messageMap.length) ∧
    (∀ modid, ∃ messageMap messageModMap,
      unloadMessages registered modid = .ok (messageMap, messageModMap) ∧
      messageMap.length = registered.messageMap.length) ∧
    (∀ sname, (TSLoadEventHandler registered sname).messageMap.length
      = registered.messageMap.length) ∧
    (∀ sname t, TSUnloadEventHandler registered sname = .ok t →
      t.messageMap.length = registered.messageMap.length) ∧
    (∀ modid opcode size (c : List Nat → List Nat),
      registered.messageMap.length
        ≤ (RegisterMessage registered modid opcode size c).messageMap.length) ∧
    (∀ opcode func, (AddMessageListener registered opcode func).messageMap.length
      = registered.messageMap.length) :=
  unload_loop_in_bounds registered registered_reachable

/-! ## The sweep -/

theorem RemoveWorker_Visit_cleared (objs : List (Nat × WorldObject)) :
    (∀ p ∈ RemoveWorker.Visit objs, p.2.Cleared) ∧
      guids (RemoveWorker.Visit objs) = guids objs := by
  unfold RemoveWorker.Visit guids
  constructor
  · intro p hp
    rw [List.mem_map] at hp
    obtain ⟨q, _, hq⟩ := hp
    subst hq
    exact ⟨rfl, rfl, rfl⟩
  · rw [List.map_map]
    rfl

/-- After the sweep every creature, game object and player is cleared, and the
maps, their objects and the players are the same entities as before. -/
theorem sweep_cleared (w : World) :
    (∀ m ∈ (sweep w).maps, (∀ p ∈ m.creatures, p.2.Cleared)
      ∧ (∀ p ∈ m.gameObjects, p.2.Cleared)) ∧
    (∀ p ∈ (sweep w).players, p.2.Cleared) ∧
    guids (sweep w).players = guids w.players ∧
    (sweep w).maps.map (fun m => guids m.creatures) = w.maps.map (fun m => guids m.creatures) ∧
    (sweep w).maps.map (fun m => guids m.gameObjects)
      = w.maps.map (fun m => guids m.gameObjects) := by
  refine ⟨?_, ?_, ?_, ?_, ?_⟩
  · intro m hm
    simp only [sweep, List.mem_map] at hm
    obtain ⟨m0, _, hm0⟩ := hm
    subst hm0
    exact ⟨(RemoveWorker_Visit_cleared m0.creatures).1,
      (RemoveWorker_Visit_cleared m0.gameObjects).1⟩
  · exact (RemoveWorker_Visit_cleared w.players).1
  · exact (RemoveWorker_Visit_cleared w.players).2
  · simp only [sweep, List.map_map]
    apply List.map_congr_left
    intro m _
    exact (RemoveWorker_Visit_cleared m.creatures).2
  · simp only [sweep, List.map_map]
    apply List.map_congr_left
    intro m _
    exact (RemoveWorker_Visit_cleared m.gameObjects).2

/-- The second block of the unload completes when the name is not loaded or
the mod id of its handler set has a reload counter. -/
theorem unloadEvents_ok {π : Type} (s : State π) (sname : String)
    (hc : ∀ h, s.eventHandlers sname = some h → h.modid < s.reloads.length) :
    ∃ reloads eventHandlers, unloadEvents s sname = .ok (reloads, eventHandlers) := by
  unfold unloadEvents
  cases he : s.eventHandlers sname with
  | none => exact ⟨_, _, rfl⟩
  | some h =>
    simp only
    rw [List.getElem?_eq_getElem (hc h he)]
    exact ⟨_, _, rfl⟩

/-- The sweep of an unload that completes. In a reachable state of the
registries, with any world, and for any mod name, loaded or not, whose handler
set (if there is one) has a mod id with a reload counter,
`TSUnloadEventHandler(name)` completes, and afterwards every creature and game
object of every map and every connected player has an empty storage bag, an
empty timer collection and an empty collision-callback list, while the players
and the creatures and game objects of each map are the same entities as
before. -/
theorem unload_sweeps_world {π : Type} (s : State π) (w : World) (sname : String)
    (hs : Reachable s)
    (hc : ∀ h, s.eventHandlers sname = some h → h.modid < s.reloads.length) :
    ∃ t, TSUnloadEventHandler { s with world := w } sname = .ok t ∧
      (∀ m ∈ t.world.maps, (∀ p ∈ m.creatures, p.2.Cleared)
        ∧ (∀ p ∈ m.gameObjects, p.2.Cleared)) ∧
      (∀ p ∈ t.world.players, p.2.Cleared) ∧
      guids t.world.players = guids w.players ∧
      t.world.maps.map (fun m => guids m.creatures) = w.maps.map (fun m => guids m.creatures) ∧
      t.world.maps.map (fun m => guids m.gameObjects)
        = w.maps.map (fun m => guids m.gameObjects) := by
  obtain ⟨mm, own, hm⟩ :=
    unloadMessages_ok { s with world := w } (({ s with world := w }.modIds sname).getD 0)
      (@owned_below_size π (fun _ => True) s hs)
  obtain ⟨rl, eh, he⟩ := unloadEvents_ok { s with world := w } sname hc
  exact ⟨_, TSUnloadEventHandler_of_parts _ sname mm own rl eh hm he, sweep_cleared w⟩

/-! ## C14: reload counters -/

theorem reload_first : reload (TSLoadEventHandler start "a") "a" = .ok (counterState 1) := by
  simp [reload, TSUnloadEventHandler, unloadMessages, unloadEvents, TSLoadEventHandler,
    loadModid, start, State.initial, counterState, sweep, uint32Mod]

theorem reload_counterState (n : Nat) :
    reload (counterState n) "a" = .ok (counterState (n + 1)) := by
  have hmod : (n % 4294967296 + 1) % 4294967296 = (n + 1) % 4294967296 := by omega
  simp only [reload, TSUnloadEventHandler, unloadMessages, unloadEvents, TSLoadEventHandler,
    loadModid, counterState, Function.update_same, Option.getD_some,
    List.getElem?_cons_zero, List.set_cons_zero, Function.update_idem,
    sweep, List.map_nil, uint32Mod, hmod]

theorem reload_reachable {π : Type} {s t : State π} (sname : String) (hs : Reachable s)
    (h : reload s sname = .ok t) : Reachable t := by
  unfold reload at h
  cases hu : TSUnloadEventHandler s sname with
  | error e => rw [hu] at h; cases h
  | ok u =>
    rw [hu] at h
    simp only [Except.ok.injEq] at h
    subst h
    exact ReachableWith.load sname (ReachableWith.unload sname hs hu)

/-- Every value of the reload counter of the first mod is reachable. -/
theorem counterState_reachable (n : Nat) : Reachable (counterState (n + 1)) := by
  induction n with
  | zero =>
    exact reload_reachable "a" (ReachableWith.load "a" (ReachableWith.initial _)) reload_first
  | succ k ih => exact reload_reachable "a" ih (reload_counterState (k + 1))

theorem GetReloads_eq {π : Type} (s : State π) (modid r : Nat) (h : s.reloads[modid]? = some r) :
    GetReloads s modid = .ok r := by
  simp only [GetReloads, h]

/-- C14, as the code has it. In a reachable state: a load changes no existing
counter, and when the name is not in `modIds` (and fewer than 2 ^ 32 counters
exist) the mod id it gives is the count of counters, an id that had no counter
before and now has counter 0. Unloading a loaded name whose handler set has
mod id `m` with counter `r` completes, sets the counter of `m` to
`(r + 1) mod 2 ^ 32`, which is `r + 1` unless `r` is `2 ^ 32 - 1`, and leaves
every other counter as it was. Unloading a name that is not loaded completes
and changes no counter. -/
theorem reload_counters {π : Type} (s : State π) (sname : String) (hs : Reachable s) :
    (∀ i r : Nat, s.reloads[i]? = some r →
      (TSLoadEventHandler s sname).reloads[i]? = some r) ∧
    (s.modIds sname = none → s.reloads.length < uint32Mod →
      (TSLoadEventHandler s sname).eventHandlers sname = some ⟨s.reloads.length⟩ ∧
      GetReloads s s.reloads.length = .error .outOfBounds ∧
      GetReloads (TSLoadEventHandler s sname) s.reloads.length = .ok 0) ∧
    (∀ m r : Nat, s.eventHandlers sname = some ⟨m⟩ → s.reloads[m]? = some r →
      ∃ t, TSUnloadEventHandler s sname = .ok t ∧
        GetReloads t m = .ok ((r + 1) % uint32Mod) ∧
        (r + 1 < uint32Mod → GetReloads t m = .ok (r + 1)) ∧
        ∀ i : Nat, i ≠ m → t.reloads[i]? = s.reloads[i]?) ∧
    (s.eventHandlers sname = none →
      ∃ t, TSUnloadEventHandler s sname = .ok t ∧ t.reloads = s.reloads) := by
  have hown := owned_below_size hs
  refine ⟨?_, ?_, ?_, ?_⟩
  · intro i r hi
    have hlt : i < s.reloads.length := by
      by_contra hge
      rw [List.getElem?_eq_none (by omega)] at hi
      cases hi
    unfold TSLoadEventHandler
    cases s.modIds sname with
    | some id => exact hi
    | none =>
      simp only
      rw [List.getElem?_append_left hlt]
      exact hi
  · intro hnone hlen
    refine ⟨?_, ?_, ?_⟩
    · simp only [TSLoadEventHandler, loadModid, hnone, Function.update_same,
        Nat.mod_eq_of_lt hlen]
    · simp only [GetReloads, List.getElem?_eq_none (Nat.le_refl _)]
    · apply GetReloads_eq
      simp only [TSLoadEventHandler, hnone]
      rw [List.getElem?_append_right (Nat.le_refl _)]
      simp
  · intro m r he hr
    have hlt : m < s.reloads.length := by
      by_contra hge
      rw [List.getElem?_eq_none (by omega)] at hr
      cases hr
    obtain ⟨mm, own, hm⟩ := unloadMessages_ok s ((s.modIds sname).getD 0) hown
    have hev : unloadEvents s sname
        = .ok (s.reloads.set m ((r + 1) % uint32Mod),
            Function.update s.eventHandlers sname none) := by
      simp only [unloadEvents, he, hr]
    have hget : (s.reloads.set m ((r + 1) % uint32Mod))[m]? = some ((r + 1) % uint32Mod) := by
      rw [List.getElem?_set, if_pos rfl, if_pos hlt]
    refine ⟨_, TSUnloadEventHandler_of_parts s sname mm own _ _ hm hev, ?_, ?_, ?_⟩
    · exact GetReloads_eq _ m _ hget
    · intro hsmall
      exact (GetReloads_eq _ m _ hget).trans (by rw [Nat.mod_eq_of_lt hsmall])
    · intro i hi
      simp only
      rw [List.getElem?_set, if_neg (Ne.symm hi)]
  · intro he
    obtain ⟨mm, own, hm⟩ := unloadMessages_ok s ((s.modIds sname).getD 0) hown
    have hev : unloadEvents s sname = .ok (s.reloads, s.eventHandlers) := by
      simp only [unloadEvents, he]
    exact ⟨_, TSUnloadEventHandler_of_parts s sname mm own _ _ hm hev, rfl⟩

/-- C14, witness: mod "b" of the scenario `registered`, loaded with mod id 1
and counter 0. -/
theorem reload_counters_witness :
    (∀ i r : Nat, registered.reloads[i]? = some r →
      (TSLoadEventHandler registered "b").reloads[i]? = some r) ∧
    (registered.modIds "b" = none → registered.reloads.length < uint32Mod →
      (TSLoadEventHandler registered "b").eventHandlers "b"
        = some ⟨registered.reloads.length⟩ ∧
      GetReloads registered registered.reloads.length = .error .outOfBounds ∧
      GetReloads (TSLoadEventHandler registered "b") registered.reloads.length = .ok 0) ∧
    (∀ m r : Nat, registered.eventHandlers "b" = some ⟨m⟩ → registered.reloads[m]? = some r →
      ∃ t, TSUnloadEventHandler registered "b" = .ok t ∧
        GetReloads t m = .ok ((r + 1) % uint32Mod) ∧
        (r + 1 < uint32Mod → GetReloads t m = .ok (r + 1)) ∧
        ∀ i : Nat, i ≠ m → t.reloads[i]? = registered.reloads[i]?) ∧
    (registered.eventHandlers "b" = none →
      ∃ t, TSUnloadEventHandler registered "b" = .ok t ∧ t.reloads = registered.reloads) :=
  reload_counters registered "b" registered_reachable

/-- C14, counterexample. When the never-loaded "b" is unloaded and then loaded
from the initial state, "b" is loaded with mod id 0 but no counter exists:
`GetReloads(0)` and the increment of the next unload index the empty `reloads`
out of bounds. And in the reachable state where the counter of mod 0 is
`2 ^ 32 - 1`, unloading "a" leaves the counter at 0. -/
theorem reload_counter_missing_or_wrapping :
    (∃ t, reload start "b" = .ok t ∧ t.eventHandlers "b" = some ⟨0⟩ ∧
      t.reloads = [] ∧ GetReloads t 0 = .error .outOfBounds ∧
      TSUnloadEventHandler t "b" = .error .outOfBounds) ∧
    Reachable (counterState 4294967295) ∧
    (counterState 4294967295).eventHandlers "a" = some ⟨0⟩ ∧
    GetReloads (counterState 4294967295) 0 = .ok 4294967295 ∧
    (∃ t, TSUnloadEventHandler (counterState 4294967295) "a" = .ok t ∧
      GetReloads t 0 = .ok 0) :=
  ⟨⟨_, rfl, rfl, rfl, rfl, rfl⟩, counterState_reachable 4294967294, rfl, rfl, ⟨_, rfl, rfl⟩⟩

/-! ## C17: the item query for an absent item -/

theorem decodeBase64_SGAP (rest : List Nat) :
    decodeBase64 (83 :: 71 :: 65 :: 80 :: rest) = 72 :: 96 :: 15 :: decodeBase64 rest := by
  rw [decodeBase64]
  have h1 : base64Value 83 = some 18 := rfl
  have h2 : base64Value 71 = some 6 := rfl
  have h3 : base64Value 65 = some 0 := rfl
  have h4 : base64Value 80 = some 15 := rfl
  simp only [h1, h2, h3, h4]

/-- What the handler does when the pre-decode check has passed and the decoded
bytes exceed the 250 bytes of `outarr`. -/
theorem handleAddonNetworkMessage_of_overflow {π : Type} (decode : List Nat → List Nat)
    (s : State π) (player type lang : Nat) (msg : List Nat)
    (hpre : PassesPreDecode msg) (hlong : 250 < (decoded decode msg).length) :
    handleAddonNetworkMessage decode s player type lang msg player
      = .error .bufferOverflow := by
  obtain ⟨h1, h2⟩ := hpre
  unfold decoded at hlong
  unfold handleAddonNetworkMessage
  simp only [ne_eq, not_true_eq_false, if_false]
  rw [if_neg (by omega), if_neg (by rw [h2]; simp), if_pos (by omega)]

/-- What the handler does when the decoded bytes fit the buffer and are more
than 6 but do not begin with 1007688. -/
theorem handleAddonNetworkMessage_of_wrong_header {π : Type} (decode : List Nat → List Nat)
    (s : State π) (player type lang : Nat) (msg : List Nat)
    (hpre : PassesPreDecode msg) (hfit : (decoded decode msg).length ≤ 250)
    (hlong : 6 < (decoded decode msg).length)
    (hpost : readU32 (decoded decode msg) 0 ≠ 1007688) :
    handleAddonNetworkMessage decode s player type lang msg player
      = .ok ⟨false, some (decoded decode msg), []⟩ := by
  obtain ⟨h1, h2⟩ := hpre
  unfold decoded at hfit hlong hpost ⊢
  unfold handleAddonNetworkMessage
  simp only [ne_eq, not_true_eq_false, if_false]
  rw [if_neg (by omega), if_neg (by rw [h2]; simp), if_neg (by omega), if_neg (by omega),
    if_pos hpost]

/-- In a reachable state a message that passes both header checks is
handled. -/
theorem handled_of_passes {π : Type} (decode : List Nat → List Nat) (s : State π)
    (player type lang : Nat) (msg : List Nat) (hs : Reachable s)
    (hp : PassesHeaderChecks decode msg) :
    ∃ calls, handleAddonNetworkMessage decode s player type lang msg player
      = .ok ⟨true, some (decoded decode msg), calls⟩ := by
  rw [handleAddonNetworkMessage_of_passes decode s player type lang msg hp]
  by_cases hge : readU16 (decoded decode msg) 4 ≥ s.messageMap.length
  · rw [if_pos hge]
    exact ⟨[], rfl⟩
  · have hget := List.getElem?_eq_getElem (Nat.lt_of_not_ge hge)
    rw [if_neg hge, hget]
    simp only
    split_ifs with hrej
    · exact ⟨[], rfl⟩
    · have hen : (s.messageMap[readU16 (decoded decode msg) 4]).enabled = true := by
        by_contra hne
        exact hrej (Or.inr (by simpa using hne))
      obtain ⟨c, hc⟩ := enabled_has_constructor hs _ _ hget hen
      simp only [MessageHandle.fire, hc]
      exact ⟨_, rfl⟩

/-! ## C5: a frame longer than the decode buffer -/

set_option maxRecDepth 100000 in
/-- C5, evaluated. Opcode 5 is registered and enabled with expected size 249
and listener 77. The self-addressed frame of opcode 5 with a payload of 249
bytes passes the pre-decode check, decodes to 255 bytes that begin with
1007688 and carry opcode 5, which is below the registry size, and the slot's
expected size is the decoded length minus 6; yet the handler does not return
handled = true and calls no listener: the decode has written beyond the 250
bytes of `outarr`. -/
theorem dispatch_overflows_on_long_frame :
    Reachable longPayloadRegistered ∧
    longPayloadRegistered.messageMap[5]? = some ⟨249, some id, true, [77]⟩ ∧
    longFrame.length = 340 ∧
    PassesPreDecode longFrame ∧
    decoded decodeBase64 longFrame = innerFrame 5 (List.replicate 249 0) ∧
    (decoded decodeBase64 longFrame).length = 255 ∧
    readU32 (decoded decodeBase64 longFrame) 0 = 1007688 ∧
    readU16 (decoded decodeBase64 longFrame) 4 = 5 ∧
    5 < longPayloadRegistered.messageMap.length ∧
    handleAddonNetworkMessage decodeBase64 longPayloadRegistered 9 0 0 longFrame 9
      = .error .bufferOverflow := by
  refine ⟨?_, rfl, by decide, by decide, by decide, by decide, by decide, by decide,
    by decide, ?_⟩
  · exact ReachableWith.listen 5 77
      (ReachableWith.register 1 5 249 id
        (ReachableWith.load "b" (ReachableWith.load "a" (ReachableWith.initial _)))
        trivial (by decide) (by decide))
      (by decide)
  · rfl

/-! ## C16: an unload that does not reach the sweep -/

/-- C16, evaluated. After the never-loaded "b" is unloaded and then loaded from
the initial state, "b" is loaded with mod id 0 and `reloads` is empty. With the
world populated by the host, `TSUnloadEventHandler("b")` indexes `reloads` out
of bounds at the increment of the counter, before the sweep: it does not
complete, and the creature, the game object and the player keep their
data. -/
theorem unload_faults_before_sweep :
    ∃ t, reload start "b" = .ok t ∧ Reachable t ∧
      t.eventHandlers "b" = some ⟨0⟩ ∧ t.reloads = [] ∧
      TSUnloadEventHandler { t with world := populated } "b" = .error .outOfBounds ∧
      (¬ ∀ p ∈ populated.players, p.2.Cleared) ∧
      (¬ ∀ m ∈ populated.maps, (∀ p ∈ m.creatures, p.2.Cleared)
        ∧ (∀ p ∈ m.gameObjects, p.2.Cleared)) :=
  ⟨_, rfl, reload_reachable "b" (ReachableWith.initial _) rfl, rfl, rfl, rfl,
    by decide, by decide⟩

/-! ## C19: the decode starts at the pre-decode header -/

/-- C19. For a self-addressed message of bytes that passes the pre-decode
check, in a reachable state: the text after the leading tabs and spaces begins
with the characters `S`, `G`, `A`, `P`, and what the handler decodes is that
text from the header on: the decoded bytes `out` are 0x48, 0x60, 0x0F, the
three low bytes of 1007688 in little-endian order, followed by the standard
base64 decoding of the text after the four header characters. The handler's
result is determined by `out`: a fault when `out` exceeds the buffer, not
handled when `out` has at most 6 bytes, and otherwise the post-decode header
read equals 1007688 exactly when the fourth byte of `out` is 0, the handler
returning not handled when it is not 0 and handled when it is 0; the event
carries `out` in each of these cases. -/
theorem decode_starts_at_header {π : Type} (s : State π) (player type lang : Nat)
    (msg : List Nat) (hs : Reachable s) (hbytes : ∀ b ∈ msg, b < 256)
    (hpre : PassesPreDecode msg) :
    (msg.drop (leadingOffset msg)).take 4 = [83, 71, 65, 80] ∧
    (le32 1007688).take 3 = [0x48, 0x60, 0x0F] ∧
    ∃ out, out = 0x48 :: 0x60 :: 0x0F :: decodeBase64 (msg.drop (leadingOffset msg + 4)) ∧
      decodeBase64 (msg.drop (leadingOffset msg)) = out ∧
      (250 < out.length →
        handleAddonNetworkMessage decodeBase64 s player type lang msg player
          = .error .bufferOverflow) ∧
      (out.length ≤ 6 →
        handleAddonNetworkMessage decodeBase64 s player type lang msg player
          = .ok ⟨false, some out, []⟩) ∧
      (6 < out.length → (readU32 out 0 = 1007688 ↔ out[3]? = some 0)) ∧
      (6 < out.length → out.length ≤ 250 → out[3]? ≠ some 0 →
        handleAddonNetworkMessage decodeBase64 s player type lang msg player
          = .ok ⟨false, some out, []⟩) ∧
      (6 < out.length → out.length ≤ 250 → out[3]? = some 0 →
        ∃ calls, handleAddonNetworkMessage decodeBase64 s player type lang msg player
          = .ok ⟨true, some out, calls⟩) := by
  have hdrop : msg.drop (leadingOffset msg + 4) = (msg.drop (leadingOffset msg)).drop 4 := by
    rw [List.drop_drop, Nat.add_comm]
  have hsub : ∀ b ∈ msg.drop (leadingOffset msg), b < 256 :=
    fun b hb => hbytes b (List.mem_of_mem_drop hb)
  have hlen := hpre.1
  have hhead := hpre.2
  rw [← List.length_drop] at hlen
  have key : (msg.drop (leadingOffset msg)).take 4 = [83, 71, 65, 80] ∧
      decoded decodeBase64 msg
        = 72 :: 96 :: 15 :: decodeBase64 ((msg.drop (leadingOffset msg)).drop 4) := by
    unfold decoded
    generalize msg.drop (leadingOffset msg) = text at hlen hhead hsub
    match text, hlen with
    | a :: b :: c :: d :: e :: rest, _ =>
      have ha : a < 256 := hsub a (by simp)
      have hb : b < 256 := hsub b (by simp)
      have hc : c < 256 := hsub c (by simp)
      have hd : d < 256 := hsub d (by simp)
      simp only [readU32, List.getD_cons_succ, List.getD_cons_zero] at hhead
      have ea : a = 83 := by omega
      have eb : b = 71 := by omega
      have ec : c = 65 := by omega
      have ed : d = 80 := by omega
      subst ea eb ec ed
      rw [decodeBase64_SGAP]
      exact ⟨rfl, rfl⟩
  obtain ⟨htake, hdec⟩ := key
  rw [← hdrop] at hdec
  refine ⟨htake, rfl, _, rfl, ?_, ?_, ?_, ?_, ?_, ?_⟩
  · exact hdec
  · intro hover
    rw [← hdec] at hover
    exact handleAddonNetworkMessage_of_overflow decodeBase64 s player type lang msg hpre hover
  · intro hshort
    rw [← hdec] at hshort ⊢
    exact handleAddonNetworkMessage_of_short decodeBase64 s player type lang msg hpre hshort
  · intro hlong
    match hrest : decodeBase64 (msg.drop (leadingOffset msg + 4)), hlong with
    | x :: tail, _ =>
      simp only [readU32, List.getD_cons_succ, List.getD_cons_zero,
        List.getElem?_cons_succ, List.getElem?_cons_zero, Option.some.injEq]
      omega
  · intro hlong hfit hfourth
    have hpost : readU32 (decoded decodeBase64 msg) 0 ≠ 1007688 := by
      rw [hdec]
      match hrest : decodeBase64 (msg.drop (leadingOffset msg + 4)), hlong, hfourth with
      | x :: tail, _, hx =>
        simp only [List.getElem?_cons_succ, List.getElem?_cons_zero, ne_eq,
          Option.some.injEq] at hx
        simp only [readU32, List.getD_cons_succ, List.getD_cons_zero]
        omega
    rw [← hdec] at hlong hfit ⊢
    exact handleAddonNetworkMessage_of_wrong_header decodeBase64 s player type lang msg hpre
      hfit hlong hpost
  · intro hlong hfit hfourth
    have hpost : readU32 (decoded decodeBase64 msg) 0 = 1007688 := by
      rw [hdec]
      match hrest : decodeBase64 (msg.drop (leadingOffset msg + 4)), hlong, hfourth with
      | x :: tail, _, hx =>
        simp only [List.getElem?_cons_succ, List.getElem?_cons_zero,
          Option.some.injEq] at hx
        simp only [readU32, List.getD_cons_succ, List.getD_cons_zero]
        omega
    rw [← hdec] at hlong hfit ⊢
    exact handled_of_passes decodeBase64 s player type lang msg hs ⟨hpre, hfit, hlong, hpost⟩

/-- C19, witness: the frame of opcode 5 with payload 1, 2, 3, in the scenario
where opcode 5 is registered. -/
theorem decode_starts_at_header_witness :
    ((bytesOf "SGAPAAUAAQID").drop (leadingOffset (bytesOf "SGAPAAUAAQID"))).take 4
      = [83, 71, 65, 80] ∧
    (le32 1007688).take 3 = [0x48, 0x60, 0x0F] ∧
    ∃ out, out = 0x48 :: 0x60 :: 0x0F ::
        decodeBase64 ((bytesOf "SGAPAAUAAQID").drop
          (leadingOffset (bytesOf "SGAPAAUAAQID") + 4)) ∧
      decodeBase64 ((bytesOf "SGAPAAUAAQID").drop (leadingOffset (bytesOf "SGAPAAUAAQID")))
        = out ∧
      (250 < out.length →
        handleAddonNetworkMessage decodeBase64 registered 9 0 0 (bytesOf "SGAPAAUAAQID") 9
          = .error .bufferOverflow) ∧
      (out.length ≤ 6 →
        handleAddonNetworkMessage decodeBase64 registered 9 0 0 (bytesOf "SGAPAAUAAQID") 9
          = .ok ⟨false, some out, []⟩) ∧
      (6 < out.length → (readU32 out 0 = 1007688 ↔ out[3]? = some 0)) ∧
      (6 < out.length → out.length ≤ 250 → out[3]? ≠ some 0 →
        handleAddonNetworkMessage decodeBase64 registered 9 0 0 (bytesOf "SGAPAAUAAQID") 9
          = .ok ⟨false, some out, []⟩) ∧
      (6 < out.length → out.length ≤ 250 → out[3]? = some 0 →
        ∃ calls,
          handleAddonNetworkMessage decodeBase64 registered 9 0 0 (bytesOf "SGAPAAUAAQID") 9
            = .ok ⟨true, some out, calls⟩) :=
  decode_starts_at_header registered 9 0 0 (bytesOf "SGAPAAUAAQID") registered_reachable
    (by decide) (by decide)

end TSEventLoader
